import Mathlib

/-!
# TideStats: running tide statistics with FRAM persistence

A shallow embedding of `src/TideStats.h` / `src/TideStats.cpp` (default build,
`CAL_DEBUG` not defined).

Modelling conventions
* `float` / `double` values are exact rationals (`ℚ`); rounding is not modelled.
* `uint32_t` values are naturals, reduced modulo `2 ^ 32` wherever the source
  computes with them (`stats.num++`, `readingTime - ...`).
* `int n` (the member that receives `stats.num`) is the two's complement
  reading of the 32-bit pattern.
* each `framArray` holds one record; `read(0, &r)` / `write(0, &r)` copy that
  record from / to the slot.
* the clock, the I2C bus, the LED and `delay` are not part of the state; the
  clock value is an argument of the operations that read it.
-/

/-- Number of values of a `uint32_t`. -/
def UINT32_SIZE : Nat := 4294967296

/-- `DATUM_PERIOD_S` of the default build: 25 hours. -/
def DATUM_PERIOD_S : Nat := 90000

/-- `DATUM_MAX_GAP_S` of the default build: 60 minutes. -/
def DATUM_MAX_GAP_S : Nat := 3600

/-- `a - b` on `uint32_t`. -/
def sub32 (a b : Nat) : Nat :=
  (a % UINT32_SIZE + (UINT32_SIZE - b % UINT32_SIZE)) % UINT32_SIZE

/-- Conversion `uint32_t -> int` (32-bit two's complement). -/
def toInt32 (u : Nat) : Int :=
  if u % UINT32_SIZE < 2147483648 then ((u % UINT32_SIZE : Nat) : Int)
  else ((u % UINT32_SIZE : Nat) : Int) - 4294967296

/-- The terminating byte of a C string. -/
def NUL : Char := Char.ofNat 0

/-- The value of `enum modeName` member `gpsmode`. -/
def gpsmode : Int := 1

/-- Record `state_t`; `runID` is the 17-byte buffer. -/
structure state_t where
  runID : List Char
  mode : Int
  type : Int
  lat : ℚ
  lon : ℚ
  A : ℚ
  k : ℚ
  lastReadingTime : Nat
deriving DecidableEq

/-- Record `stat_t`. -/
structure stat_t where
  num : Nat
  mean : ℚ
  s : ℚ
deriving DecidableEq

/-- Record `periodDatum_t`. -/
structure periodDatum_t where
  startTime : Nat
  mllw : ℚ
  mhhw : ℚ
deriving DecidableEq

/-- Record `record_t`. -/
structure record_t where
  high : ℚ
  highTime : Nat
  low : ℚ
  lowTime : Nat
deriving DecidableEq

/-- Record `calib_t`. -/
structure calib_t where
  numReadings : Nat
  totalDurationSec : Nat
  calibrated : Bool
deriving DecidableEq

/-- What the class uses of the `IoTNode` collaborator: `ok()` and `nodeID`. -/
structure IoTNode where
  ok : Bool
  nodeID : List Char
deriving DecidableEq

/-- The three `framArray&` arguments `pushStats` is called with. -/
inductive StatSlot where
  | framMllw
  | framMhhw
  | framMsl
deriving DecidableEq

/-- Data members of `class TideStats`; the `fram*` members are the contents
of the persisted slots. -/
structure TideStats where
  _node : IoTNode
  state : state_t
  calibDist : stat_t
  calib : calib_t
  mllwStats : stat_t
  mhhwStats : stat_t
  mslStats : stat_t
  periodDatum : periodDatum_t
  record : record_t
  framState : state_t
  framCalibDist : stat_t
  framCalib : calib_t
  framMllw : stat_t
  framMhhw : stat_t
  framMsl : stat_t
  framRecord : record_t
  framPeriodDatum : periodDatum_t
  periodEnd : Bool
  n : Int
  oldM : ℚ
  newM : ℚ
  oldS : ℚ
  newS : ℚ
deriving DecidableEq

namespace TideStats

/-- `statArray.read(0, ...)` for the three statistics slots. -/
def readStat (t : TideStats) : StatSlot → stat_t
  | .framMllw => t.framMllw
  | .framMhhw => t.framMhhw
  | .framMsl => t.framMsl

/-- `statArray.write(0, ...)` for the three statistics slots. -/
def writeStat (t : TideStats) (a : StatSlot) (stats : stat_t) : TideStats :=
  match a with
  | .framMllw => { t with framMllw := stats }
  | .framMhhw => { t with framMhhw := stats }
  | .framMsl => { t with framMsl := stats }

/-- `TideStats::pushStats`: returns the record and the new object state. -/
def pushStats (t : TideStats) (x : ℚ) (statArray : StatSlot) : stat_t × TideStats :=
  let stats := t.readStat statArray
  let stats := { stats with num := (stats.num + 1) % UINT32_SIZE }
  let t := { t with n := toInt32 stats.num, oldM := stats.mean, oldS := stats.s }
  if t.n = 1 then
    let stats := { stats with mean := x }
    (stats, t.writeStat statArray stats)
  else
    let t := { t with newM := t.oldM + (x - t.oldM) / (t.n : ℚ) }
    let t := { t with newS := t.oldS + (x - t.oldM) * (x - t.newM) }
    let stats := { stats with mean := t.newM, s := t.newS }
    (stats, t.writeStat statArray stats)

/-- `TideStats::loadFram`. -/
def loadFram (t : TideStats) : TideStats :=
  { t with
    state := t.framState
    calib := t.framCalib
    mllwStats := t.framMllw
    mhhwStats := t.framMhhw
    mslStats := t.framMsl
    periodDatum := t.framPeriodDatum
    record := t.framRecord }

/-- `TideStats::saveFram`. -/
def saveFram (t : TideStats) : TideStats :=
  { t with
    framState := t.state
    framCalib := t.calib
    framMllw := t.mllwStats
    framMhhw := t.mhhwStats
    framMsl := t.mslStats
    framPeriodDatum := t.periodDatum
    framRecord := t.record }

/-- The constructor `String(const char*)` applied to a buffer: the characters
before the first terminating byte. -/
def cString (buf : List Char) : List Char :=
  buf.takeWhile (fun c => c ≠ NUL)

/-- C library `strcpy(dst, src)`: the characters of `src`, then the
terminating byte; the rest of `dst` is untouched. -/
def strcpy (dst src : List Char) : List Char :=
  src ++ NUL :: dst.drop (src.length + 1)

/-- Wiring `String::toCharArray(buf, bufsize)` (that is `getBytes` at index 0)
of the string `str`: nothing for `bufsize = 0`; only `buf[0] = 0` for an empty
string; otherwise `n = min(bufsize - 1, len)` characters are copied and
`buf[n] = 0`. -/
def toCharArray (str buf : List Char) (bufsize : Nat) : List Char :=
  if bufsize = 0 then buf
  else if 0 ≥ str.length then buf.set 0 NUL
  else
    let n := if bufsize - 1 > str.length then str.length else bufsize - 1
    str.take n ++ (buf.drop n).set 0 NUL

/-- `TideStats::clear`. -/
def clear (t : TideStats) : TideStats :=
  let t := { t with state := { t.state with
    runID := strcpy t.state.runID (List.replicate 16 'F')
    mode := gpsmode
    lat := 0
    lon := 0
    A := 0
    k := 0
    lastReadingTime := 0 } }
  let t := { t with calibDist := { num := 0, mean := 0, s := 0 } }
  let t := { t with calib := { numReadings := 0, totalDurationSec := 0, calibrated := false } }
  let t := { t with mllwStats := { num := 0, mean := 0, s := 0 } }
  let t := { t with mhhwStats := { num := 0, mean := 0, s := 0 } }
  let t := { t with mslStats := { num := 0, mean := 0, s := 0 } }
  let t := { t with record := { high := 0, highTime := 0, low := 0, lowTime := 0 } }
  let t := { t with periodDatum := { startTime := 0, mhhw := 0, mllw := 0 } }
  t.saveFram

/-- `TideStats::initialize` (the name is reserved in Lean, hence the suffix).
The LED blink and the delay are not modelled. -/
def initializeNode (t : TideStats) : Bool × TideStats :=
  if t._node.ok then
    let t := t.loadFram
    let framID := cString t.state.runID
    if ¬ (framID = t._node.nodeID) then
      let t := t.clear
      let t := { t with state := { t.state with
        runID := toCharArray t._node.nodeID t.state.runID 16 } }
      (true, t.saveFram)
    else
      (true, t)
  else
    (false, t)

/-- `TideStats::isCalibrated`. -/
def isCalibrated (t : TideStats) : Bool :=
  t.calib.calibrated

/-- First statement of both `pushDistanceUpwards` variants:
`mslStats = pushStats(distUp, framMsl);`. -/
def afterMsl (t : TideStats) (distUp : ℚ) : TideStats :=
  let r := t.pushStats distUp .framMsl
  { r.2 with mslStats := r.1 }

/-- Body of the first branch of `pushDistanceUpwards` ("Period start"). -/
def restartBranch (t : TideStats) (distUp : ℚ) (readingTime : Nat) : TideStats :=
  let t := { t with periodDatum := { t.periodDatum with mhhw := distUp } }
  let t := { t with periodDatum := { t.periodDatum with mllw := distUp } }
  let t := { t with periodDatum := { t.periodDatum with startTime := readingTime } }
  { t with periodEnd := false }

/-- Body of the second branch of `pushDistanceUpwards` (still in the current
datum period). -/
def continueBranch (t : TideStats) (distUp : ℚ) : TideStats :=
  let t :=
    if distUp < t.periodDatum.mllw then
      { t with periodDatum := { t.periodDatum with mllw := distUp } }
    else t
  if distUp > t.periodDatum.mhhw then
    { t with periodDatum := { t.periodDatum with mhhw := distUp } }
  else t

/-- Body of the last branch of `pushDistanceUpwards` ("Period end"). -/
def closeBranch (t : TideStats) (readingTime : Nat) : TideStats :=
  let t := { t with periodEnd := true }
  let r := t.pushStats t.periodDatum.mllw .framMllw
  let t : TideStats := { r.2 with mllwStats := r.1 }
  let r := t.pushStats t.periodDatum.mhhw .framMhhw
  let t : TideStats := { r.2 with mhhwStats := r.1 }
  { t with periodDatum := { t.periodDatum with startTime := readingTime } }

/-- Last two statements of both `pushDistanceUpwards` variants:
`state.lastReadingTime = readingTime; saveFram();`. -/
def stampAndSave (t : TideStats) (readingTime : Nat) : TideStats :=
  let t := { t with state := { t.state with lastReadingTime := readingTime } }
  t.saveFram

/-- `TideStats::pushDistanceUpwards(double, uint32_t)`; the statements before
and after the `if` chain and the three branch bodies are the definitions
above. -/
def pushDistanceUpwards (t : TideStats) (distUp : ℚ) (readingTime : Nat) : TideStats :=
  let t := t.afterMsl distUp
  let t :=
    if t.periodDatum.startTime = 0 ∨ t.periodEnd = true
        ∨ sub32 readingTime t.state.lastReadingTime > DATUM_MAX_GAP_S then
      t.restartBranch distUp readingTime
    else if sub32 readingTime t.periodDatum.startTime < DATUM_PERIOD_S then
      t.continueBranch distUp
    else
      t.closeBranch readingTime
  t.stampAndSave readingTime

/-- `TideStats::pushDistanceUpwards(double)`; `unixTime` is what
`_node.unixTime()` returns during the call. -/
def pushDistanceUpwardsNow (t : TideStats) (distUp : ℚ) (unixTime : Nat) : TideStats :=
  let readingTime := unixTime
  let t := t.afterMsl distUp
  let t :=
    if t.periodDatum.startTime = 0 ∨ t.periodEnd = true
        ∨ sub32 readingTime t.state.lastReadingTime > DATUM_MAX_GAP_S then
      t.restartBranch distUp readingTime
    else if sub32 readingTime t.periodDatum.startTime < DATUM_PERIOD_S then
      t.continueBranch distUp
    else
      t.closeBranch readingTime
  t.stampAndSave readingTime

/-- `TideStats::mllw`: reloads the record from its slot, returns its mean. -/
def mllw (t : TideStats) : ℚ × TideStats :=
  let t := { t with mllwStats := t.framMllw }
  (t.mllwStats.mean, t)

/-- `TideStats::mhhw`. -/
def mhhw (t : TideStats) : ℚ × TideStats :=
  let t := { t with mhhwStats := t.framMhhw }
  (t.mhhwStats.mean, t)

/-- `TideStats::msl`. -/
def msl (t : TideStats) : ℚ × TideStats :=
  let t := { t with mslStats := t.framMsl }
  (t.mslStats.mean, t)

/-- `TideStats::mllwCalibrationHoursLeft`; `unixTime` is the clock value. -/
def mllwCalibrationHoursLeft (t : TideStats) (unixTime : Nat) : ℚ × TideStats :=
  let readingTime := unixTime
  let r := t.mllw
  if r.1 = 0 then
    (((DATUM_PERIOD_S : ℚ) - (sub32 readingTime r.2.periodDatum.startTime : ℚ)) / 3600, r.2)
  else
    (0, r.2)

/-- `TideStats::standardDeviationMllw`; `sqrt` is the C library function. -/
def standardDeviationMllw (sqrt : ℚ → ℚ) (t : TideStats) : ℚ × TideStats :=
  let t := { t with mllwStats := t.framMllw }
  if t.mllwStats.num > 1 then
    (sqrt (t.mllwStats.s / (sub32 t.mllwStats.num 1 : ℚ)), t)
  else
    (0, t)

/-- `TideStats::standardDeviationMhhw`. -/
def standardDeviationMhhw (sqrt : ℚ → ℚ) (t : TideStats) : ℚ × TideStats :=
  let t := { t with mhhwStats := t.framMhhw }
  if t.mhhwStats.num > 1 then
    (sqrt (t.mhhwStats.s / (sub32 t.mhhwStats.num 1 : ℚ)), t)
  else
    (0, t)

/-- `TideStats::standardDeviationMsl`. -/
def standardDeviationMsl (sqrt : ℚ → ℚ) (t : TideStats) : ℚ × TideStats :=
  let t := { t with mslStats := t.framMsl }
  if t.mslStats.num > 1 then
    (sqrt (t.mslStats.s / (sub32 t.mslStats.num 1 : ℚ)), t)
  else
    (0, t)

/-- The constructor: `periodEnd` starts `false`; the other members start with
whatever the arguments give (the source leaves them uninitialised). -/
def construct (node : IoTNode) (mem : TideStats) : TideStats :=
  { mem with _node := node, periodEnd := false }

end TideStats

/-- The three rules of the period segmenter. -/
inductive SegRule where
  | restart
  | continuePeriod
  | closePeriod
deriving DecidableEq

/-- The branch `pushDistanceUpwards(distUp, readingTime)` takes in state `t`:
the conditions of its `if` / `else if` / `else`, in order. -/
def segmentRule (t : TideStats) (readingTime : Nat) : SegRule :=
  if t.periodDatum.startTime = 0 ∨ t.periodEnd = true
      ∨ sub32 readingTime t.state.lastReadingTime > DATUM_MAX_GAP_S then
    .restart
  else if sub32 readingTime t.periodDatum.startTime < DATUM_PERIOD_S then
    .continuePeriod
  else
    .closePeriod

/-- The members of the object other than the scratch variables of `pushStats`
(`n`, `oldM`, `newM`, `oldS`, `newS`). -/
structure Observed where
  node : IoTNode
  state : state_t
  calibDist : stat_t
  calib : calib_t
  mllwStats : stat_t
  mhhwStats : stat_t
  mslStats : stat_t
  periodDatum : periodDatum_t
  record : record_t
  framState : state_t
  framCalibDist : stat_t
  framCalib : calib_t
  framMllw : stat_t
  framMhhw : stat_t
  framMsl : stat_t
  framRecord : record_t
  framPeriodDatum : periodDatum_t
  periodEnd : Bool
deriving DecidableEq

/-- The observable part of an object. -/
def observe (t : TideStats) : Observed :=
  { node := t._node, state := t.state, calibDist := t.calibDist, calib := t.calib,
    mllwStats := t.mllwStats, mhhwStats := t.mhhwStats, mslStats := t.mslStats,
    periodDatum := t.periodDatum, record := t.record, framState := t.framState,
    framCalibDist := t.framCalibDist, framCalib := t.framCalib, framMllw := t.framMllw,
    framMhhw := t.framMhhw, framMsl := t.framMsl, framRecord := t.framRecord,
    framPeriodDatum := t.framPeriodDatum, periodEnd := t.periodEnd }

/-- Smallest element of the list `x :: xs`. -/
def listMin (x : ℚ) (xs : List ℚ) : ℚ :=
  xs.foldl min x

/-- Largest element of the list `x :: xs`. -/
def listMax (x : ℚ) (xs : List ℚ) : ℚ :=
  xs.foldl max x

/-- Two successive readings: the later one is later in time and at most
`DATUM_MAX_GAP_S` seconds after the earlier one. -/
def closeInTime (a b : ℚ × Nat) : Prop :=
  a.2 < b.2 ∧ b.2 - a.2 ≤ DATUM_MAX_GAP_S

instance closeInTimeDecidable : DecidableRel closeInTime :=
  fun a b => inferInstanceAs (Decidable (a.2 < b.2 ∧ b.2 - a.2 ≤ DATUM_MAX_GAP_S))

/-- Readings every hour from 3601 s to 86401 s: value 1 at 3601 s, value 7 at
7201 s, value 4 afterwards. -/
def hourlyReadings : List (ℚ × Nat) :=
  (1, 3601) :: (7, 7201) :: (List.range 22).map (fun i => ((4 : ℚ), 10801 + 3600 * i))

/-- The scenario of the spec: readings 5, 1, 3 at times 0, P/2, P+1. -/
def scenarioReadings : List (ℚ × Nat) :=
  [(5, 0), (1, DATUM_PERIOD_S / 2), (3, DATUM_PERIOD_S + 1)]

/-- Two readings exactly one period apart. -/
def sparseReadings : List (ℚ × Nat) :=
  [(5, 1), (3, 90001)]

/-! ## Runs of pushes and the reference statistics -/

/-- A zeroed accumulator record. -/
def zeroStat : stat_t := { num := 0, mean := 0, s := 0 }

/-- An object whose members and slots are all zero and whose node is not ready
with an empty identifier: a concrete starting point for evaluations. -/
def blankTide : TideStats :=
  { _node := { ok := false, nodeID := [] }
    state := { runID := List.replicate 17 NUL, mode := 0, type := 0, lat := 0, lon := 0,
               A := 0, k := 0, lastReadingTime := 0 }
    calibDist := zeroStat
    calib := { numReadings := 0, totalDurationSec := 0, calibrated := false }
    mllwStats := zeroStat
    mhhwStats := zeroStat
    mslStats := zeroStat
    periodDatum := { startTime := 0, mllw := 0, mhhw := 0 }
    record := { high := 0, highTime := 0, low := 0, lowTime := 0 }
    framState := { runID := List.replicate 17 NUL, mode := 0, type := 0, lat := 0, lon := 0,
                   A := 0, k := 0, lastReadingTime := 0 }
    framCalibDist := zeroStat
    framCalib := { numReadings := 0, totalDurationSec := 0, calibrated := false }
    framMllw := zeroStat
    framMhhw := zeroStat
    framMsl := zeroStat
    framRecord := { high := 0, highTime := 0, low := 0, lowTime := 0 }
    framPeriodDatum := { startTime := 0, mllw := 0, mhhw := 0 }
    periodEnd := false
    n := 0
    oldM := 0
    newM := 0
    oldS := 0
    newS := 0 }

/-- The cleared state: a newly constructed object after `clear()`. -/
def clearedTide : TideStats :=
  (TideStats.construct { ok := true, nodeID := [] } blankTide).clear

/-- The samples `xs` pushed one by one through `pushStats` into one slot. -/
def pushMany (t : TideStats) (xs : List ℚ) (a : StatSlot) : TideStats :=
  xs.foldl (fun t x => (t.pushStats x a).2) t

/-- The readings `rs` (value, time) pushed one by one through
`pushDistanceUpwards(distUp, readingTime)`. -/
def pushReadings (t : TideStats) (rs : List (ℚ × Nat)) : TideStats :=
  rs.foldl (fun t r => t.pushDistanceUpwards r.1 r.2) t

/-- The cleared state after the single reading 5 at time 1. -/
def oneReadingTide : TideStats :=
  clearedTide.pushDistanceUpwards 5 1

/-- A device identifier of 16 characters, the capacity of `runID` before its
terminating byte. -/
def deviceId16 : List Char :=
  ['0', '1', '2', '3', '4', '5', '6', '7', '8', '9', 'A', 'B', 'C', 'D', 'E', 'F']

/-- A device identifier of 2 characters. -/
def deviceId2 : List Char :=
  ['N', '1']

/-- A new object on a ready node with the 16-character identifier; the
persisted owner is the empty string. -/
def newTide16 : TideStats :=
  TideStats.construct { ok := true, nodeID := deviceId16 } blankTide

/-- A new object on a ready node with the 2-character identifier. -/
def newTide2 : TideStats :=
  TideStats.construct { ok := true, nodeID := deviceId2 } blankTide

/-- The object `newTide2` after `initialize()`: cleared, owner written. -/
def bootTide : TideStats :=
  newTide2.initializeNode.2

/-- A new object on the node and the persisted slots of `t`: the members
start with the values of `mem`, and `periodEnd = false` (the constructor). -/
def freshOn (t mem : TideStats) : TideStats :=
  TideStats.construct t._node
    { mem with
      framState := t.framState
      framCalibDist := t.framCalibDist
      framCalib := t.framCalib
      framMllw := t.framMllw
      framMhhw := t.framMhhw
      framMsl := t.framMsl
      framRecord := t.framRecord
      framPeriodDatum := t.framPeriodDatum }

/-- An abrupt restart of `t`: a new object on the same node and the same
persisted slots, followed by `initialize()`. -/
def powerCycle (t mem : TideStats) : TideStats :=
  (freshOn t mem).initializeNode.2

/-- The state `bootTide` after a period of closely spaced readings: 5 at 1 s,
hourly readings up to 86401 s, then 3 at 90001 s, which closes the period. -/
def closedTide : TideStats :=
  pushReadings bootTide ((5, 1) :: (hourlyReadings ++ [(3, 90001)]))

/-- An object whose persisted MLLW record holds one value, 0. -/
def zeroMeanTide : TideStats :=
  { blankTide with framMllw := { num := 1, mean := 0, s := 0 } }

/-- An object whose persisted MLLW record has count 0 and mean 3. -/
def staleMeanTide : TideStats :=
  { blankTide with framMllw := { num := 0, mean := 3, s := 0 } }

/-- Arithmetic mean of a list of samples. -/
def arithMean (xs : List ℚ) : ℚ :=
  xs.sum / (xs.length : ℚ)

/-- Two-pass sum of squared deviations from the arithmetic mean. -/
def twoPassSumSq (xs : List ℚ) : ℚ :=
  (xs.map (fun x => (x - arithMean xs) ^ 2)).sum

/-- The record `pushStats(x, slot)` stores and returns, as a function of the
record it reads from the slot. -/
def storedAfterPush (x : ℚ) (st : stat_t) : stat_t :=
  if toInt32 ((st.num + 1) % UINT32_SIZE) = 1 then
    { num := (st.num + 1) % UINT32_SIZE, mean := x, s := st.s }
  else
    { num := (st.num + 1) % UINT32_SIZE
      mean := st.mean + (x - st.mean) / ((toInt32 ((st.num + 1) % UINT32_SIZE) : Int) : ℚ)
      s := st.s + (x - st.mean) *
        (x - (st.mean + (x - st.mean) / ((toInt32 ((st.num + 1) % UINT32_SIZE) : Int) : ℚ))) }

/-- A list of 2^31 samples: 2^31 - 1 zeros, then a one. -/
def longSamples : List ℚ :=
  List.replicate 2147483647 0 ++ [1]

/-- A list of 2^32 samples, all zero. -/
def wrapSamples : List ℚ :=
  List.replicate 4294967296 0

/-- An object whose MSL slot has count 0 and sum of squares 5. -/
def staleTide : TideStats :=
  { blankTide with framMsl := { num := 0, mean := 0, s := 5 } }

/-- An object whose MSL slot has count 2^31 - 1, mean 0 and sum of squares 0. -/
def fullTide : TideStats :=
  { blankTide with framMsl := { num := 2147483647, mean := 0, s := 0 } }

/-- The invariant the spec states for a `RunningStat` record: the sum of
squared deviations is not negative, and a record with count 0 has mean 0 and
sum of squared deviations 0. -/
def RunningStatInv (st : stat_t) : Prop :=
  0 ≤ st.s ∧ (st.num = 0 → st.mean = 0 ∧ st.s = 0)

/-- An object whose MSL, MLLW and MHHW records (members and slots alike) have
the largest count a `uint32_t` holds. -/
def fullCountTide : TideStats :=
  { blankTide with
    mslStats := { num := 4294967295, mean := 0, s := 0 }
    framMsl := { num := 4294967295, mean := 0, s := 0 }
    mllwStats := { num := 4294967295, mean := 0, s := 0 }
    framMllw := { num := 4294967295, mean := 0, s := 0 }
    mhhwStats := { num := 4294967295, mean := 0, s := 0 }
    framMhhw := { num := 4294967295, mean := 0, s := 0 } }

/-- The samples of `longSamples` in another order: the one first, then
2^31 - 1 zeros. -/
def longSamplesRev : List ℚ :=
  (1 :: List.replicate 2147483646 0) ++ [0]

/-- The state `bootTide` inside a period: 5 at 1 s, then the hourly readings
up to 86401 s. -/
def openTide : TideStats :=
  pushReadings bootTide ((5, 1) :: hourlyReadings)

/-- Readings with strictly increasing timestamps, the last of which (9 at
90001 s) closes the period that began at 1 s. -/
def outlierReadings : List (ℚ × Nat) :=
  (5, 1) :: (hourlyReadings ++ [(9, 90001)])

/-- The readings `outlierReadings` followed by one more reading at the same
timestamp as the closing one. -/
def tiedReadings : List (ℚ × Nat) :=
  outlierReadings ++ [(2, 90001)]

/-- The number of readings of `rs` on which the close rule fires when they
are pushed one by one from state `t`. -/
def closeCount : TideStats → List (ℚ × Nat) → Nat
  | _, [] => 0
  | t, r :: rs =>
    (if segmentRule t r.2 = .closePeriod then 1 else 0)
      + closeCount (t.pushDistanceUpwards r.1 r.2) rs

/-- One period of 26 readings with value `x` each, except the second, which
has value `y`: at 1 s, hourly from 3601 s to 86401 s, and at 90001 s. -/
def periodBlock (x y : ℚ) : List (ℚ × Nat) :=
  (x, 1) :: (y, 3601) :: ((List.range 23).map (fun i => (x, 7201 + 3600 * i)) ++ [(x, 90001)])

/-- The state `t` after `k` periods of readings `periodBlock x y`. -/
def afterBlocks (x y : ℚ) (t : TideStats) : Nat → TideStats
  | 0 => t
  | k + 1 => pushReadings (afterBlocks x y t k) (periodBlock x y)

/-- The readings of `k` periods `periodBlock x y`, one after the other. -/
def blockReadings (x y : ℚ) : Nat → List (ℚ × Nat)
  | 0 => []
  | k + 1 => blockReadings x y k ++ periodBlock x y

/-- A run of 2^31 periods: 2^31 - 1 periods in which every reading is 0,
then one period with low 0 and high 1. -/
def longRun : List (ℚ × Nat) :=
  blockReadings 0 0 2147483647 ++ periodBlock 0 1

/-- The cleared state after one closed period in which every reading is 0
(26 readings from 1 s to 90001 s). -/
def firstMllwTide : TideStats :=
  pushReadings clearedTide (periodBlock 0 0)

/-! ## Basic facts about `pushStats` -/

theorem toInt32_of_lt {u : Nat} (h : u < 2147483648) : toInt32 u = (u : Int) := by
  unfold toInt32 UINT32_SIZE
  have h1 : u % 4294967296 = u := Nat.mod_eq_of_lt (by omega)
  rw [h1, if_pos h]

theorem toInt32_eq_one_iff (u : Nat) : toInt32 (u % UINT32_SIZE) = 1 ↔ u % UINT32_SIZE = 1 := by
  unfold toInt32 UINT32_SIZE
  split <;> omega

theorem pushStats_fst (t : TideStats) (x : ℚ) (a : StatSlot) :
    (t.pushStats x a).1 = storedAfterPush x (t.readStat a) := by
  unfold TideStats.pushStats storedAfterPush
  by_cases h : toInt32 (((t.readStat a).num + 1) % UINT32_SIZE) = 1
  · simp [h]
  · simp [h]

theorem readStat_writeStat (t : TideStats) (a : StatSlot) (st : stat_t) :
    (t.writeStat a st).readStat a = st := by
  cases a <;> rfl

theorem readStat_pushStats (t : TideStats) (x : ℚ) (a : StatSlot) :
    (t.pushStats x a).2.readStat a = storedAfterPush x (t.readStat a) := by
  rw [← pushStats_fst]
  unfold TideStats.pushStats
  by_cases h : toInt32 (((t.readStat a).num + 1) % UINT32_SIZE) = 1
  · simp [h, readStat_writeStat]
  · simp [h, readStat_writeStat]

theorem msl_fst (t : TideStats) : t.msl.1 = (t.readStat .framMsl).mean := rfl

theorem mllw_fst (t : TideStats) : t.mllw.1 = (t.readStat .framMllw).mean := rfl

theorem mhhw_fst (t : TideStats) : t.mhhw.1 = (t.readStat .framMhhw).mean := rfl

theorem readStat_pushMany (xs : List ℚ) (t : TideStats) (a : StatSlot) :
    (pushMany t xs a).readStat a
      = xs.foldl (fun st x => storedAfterPush x st) (t.readStat a) := by
  induction xs generalizing t with
  | nil => rfl
  | cons x xs ih =>
    simp only [pushMany, List.foldl_cons] at ih ⊢
    rw [ih, readStat_pushStats]

theorem storedAfterPush_num (x : ℚ) (st : stat_t) :
    (storedAfterPush x st).num = (st.num + 1) % UINT32_SIZE := by
  unfold storedAfterPush
  split <;> rfl

theorem foldl_storedAfterPush_num (xs : List ℚ) (st : stat_t) (h : st.num < UINT32_SIZE) :
    (xs.foldl (fun st x => storedAfterPush x st) st).num
      = (st.num + xs.length) % UINT32_SIZE := by
  induction xs generalizing st with
  | nil => simpa using (Nat.mod_eq_of_lt h).symm
  | cons x xs ih =>
    have hlt : (storedAfterPush x st).num < UINT32_SIZE := by
      rw [storedAfterPush_num]
      exact Nat.mod_lt _ (by unfold UINT32_SIZE; omega)
    rw [List.foldl_cons, ih _ hlt, storedAfterPush_num, List.length_cons]
    unfold UINT32_SIZE
    omega

/-! ## The one-pass update against the two-pass statistics -/

theorem storedAfterPush_zero (x : ℚ) :
    storedAfterPush x zeroStat = { num := 1, mean := x, s := 0 } := by
  simp [storedAfterPush, zeroStat, toInt32, UINT32_SIZE]

theorem storedAfterPush_step (x S Q : ℚ) (k : Nat) (st : stat_t)
    (hk : 1 ≤ k) (hlt : k + 1 < 2147483648)
    (hnum : st.num = k) (hmean : st.mean = S / (k : ℚ))
    (hs : st.s = Q - S ^ 2 / (k : ℚ)) :
    (storedAfterPush x st).num = k + 1
      ∧ (storedAfterPush x st).mean = (S + x) / ((k + 1 : Nat) : ℚ)
      ∧ (storedAfterPush x st).s = Q + x ^ 2 - (S + x) ^ 2 / ((k + 1 : Nat) : ℚ) := by
  have hmod : (st.num + 1) % UINT32_SIZE = k + 1 := by
    rw [hnum]; unfold UINT32_SIZE; omega
  have hint : toInt32 (k + 1) = ((k + 1 : Nat) : Int) := toInt32_of_lt hlt
  have hne : ¬ (((k + 1 : Nat) : Int) = 1) := by omega
  have hk0 : (k : ℚ) ≠ 0 := by
    have : (0 : ℚ) < (k : ℚ) := by exact_mod_cast hk
    exact ne_of_gt this
  have hk1 : ((k : ℚ) + 1) ≠ 0 := by
    have : (0 : ℚ) ≤ (k : ℚ) := by exact_mod_cast Nat.zero_le k
    linarith
  unfold storedAfterPush
  rw [hmod, hint, if_neg hne]
  refine ⟨rfl, ?_, ?_⟩
  · simp only [hmean, Int.cast_natCast, Nat.cast_add, Nat.cast_one]
    field_simp
    ring
  · simp only [hmean, hs, Int.cast_natCast, Nat.cast_add, Nat.cast_one]
    field_simp
    ring

theorem welford_fold (xs : List ℚ) (hne : xs ≠ []) (hlen : xs.length < 2147483648) :
    (xs.foldl (fun st x => storedAfterPush x st) zeroStat).num = xs.length
      ∧ (xs.foldl (fun st x => storedAfterPush x st) zeroStat).mean
          = xs.sum / (xs.length : ℚ)
      ∧ (xs.foldl (fun st x => storedAfterPush x st) zeroStat).s
          = (xs.map (fun x => x ^ 2)).sum - xs.sum ^ 2 / (xs.length : ℚ) := by
  induction xs using List.reverseRecOn with
  | nil => exact absurd rfl hne
  | append_singleton xs x ih =>
    rw [List.foldl_append]
    simp only [List.foldl_cons, List.foldl_nil]
    by_cases hxs : xs = []
    · subst hxs
      simp [storedAfterPush_zero]
    · have hl : xs.length + 1 < 2147483648 := by
        simpa [List.length_append] using hlen
      have hpos : 1 ≤ xs.length := List.length_pos.mpr hxs
      obtain ⟨h1, h2, h3⟩ := ih hxs (by omega)
      obtain ⟨g1, g2, g3⟩ := storedAfterPush_step x xs.sum
        ((xs.map (fun x => x ^ 2)).sum) xs.length _ hpos hl h1 h2 h3
      refine ⟨?_, ?_, ?_⟩
      · rw [g1]; simp
      · rw [g2]; simp
      · rw [g3]; simp

theorem sum_sq_dev_expand (xs : List ℚ) (m : ℚ) :
    (xs.map (fun x => (x - m) ^ 2)).sum
      = (xs.map (fun x => x ^ 2)).sum - 2 * m * xs.sum + (xs.length : ℚ) * m ^ 2 := by
  induction xs with
  | nil => simp
  | cons x xs ih =>
    simp only [List.map_cons, List.sum_cons, List.length_cons, Nat.cast_add, Nat.cast_one, ih]
    ring

theorem twoPassSumSq_eq (xs : List ℚ) (hne : xs ≠ []) :
    twoPassSumSq xs = (xs.map (fun x => x ^ 2)).sum - xs.sum ^ 2 / (xs.length : ℚ) := by
  have hpos : (0 : ℚ) < (xs.length : ℚ) := by
    exact_mod_cast List.length_pos.mpr hne
  unfold twoPassSumSq arithMean
  rw [sum_sq_dev_expand]
  field_simp
  ring

theorem foldl_replicate_zero (k : Nat) (hk : 1 ≤ k) (hlt : k < 2147483648) :
    (List.replicate k (0 : ℚ)).foldl (fun st x => storedAfterPush x st) zeroStat
      = { num := k, mean := 0, s := 0 } := by
  have hne : (List.replicate k (0 : ℚ)) ≠ [] := by
    intro h
    have := congrArg List.length h
    simp only [List.length_replicate, List.length_nil] at this
    omega
  obtain ⟨h1, h2, h3⟩ := welford_fold (List.replicate k (0 : ℚ)) hne
    (by simpa only [List.length_replicate] using hlt)
  simp only [List.length_replicate, List.sum_replicate, List.map_replicate, smul_zero,
    zero_div, ne_eq, OfNat.ofNat_ne_zero, not_false_eq_true, zero_pow, sub_zero] at h1 h2 h3
  generalize (List.replicate k (0 : ℚ)).foldl (fun st x => storedAfterPush x st) zeroStat
    = st at h1 h2 h3
  cases st
  simp_all

theorem foldl_longSamples :
    longSamples.foldl (fun st x => storedAfterPush x st) zeroStat
      = { num := 2147483648, mean := -(1 / 2147483648), s := 1 + 1 / 2147483648 } := by
  unfold longSamples
  rw [List.foldl_append, foldl_replicate_zero 2147483647 (by omega) (by omega)]
  simp only [List.foldl_cons, List.foldl_nil]
  unfold storedAfterPush
  norm_num [toInt32, UINT32_SIZE]

theorem arithMean_replicate_zero_snoc (k : Nat) :
    arithMean (List.replicate k (0 : ℚ) ++ [1]) = 1 / ((k : ℚ) + 1) := by
  unfold arithMean
  simp only [List.sum_append, List.sum_replicate, smul_zero, List.sum_cons, List.sum_nil,
    List.length_append, List.length_replicate, List.length_cons, List.length_nil,
    Nat.cast_add, Nat.cast_one, zero_add, add_zero]

theorem twoPassSumSq_replicate_zero_snoc (k : Nat) :
    twoPassSumSq (List.replicate k (0 : ℚ) ++ [1]) = 1 - 1 / ((k : ℚ) + 1) := by
  have hne : List.replicate k (0 : ℚ) ++ [1] ≠ [] := by simp
  rw [twoPassSumSq_eq _ hne]
  simp only [List.sum_append, List.sum_replicate, smul_zero, List.sum_cons, List.sum_nil,
    List.length_append, List.length_replicate, List.length_cons, List.length_nil,
    Nat.cast_add, Nat.cast_one, zero_add, add_zero, List.map_append, List.map_replicate,
    List.map_cons, List.map_nil, ne_eq, OfNat.ofNat_ne_zero, not_false_eq_true, zero_pow,
    one_pow]

theorem wrapSamples_length : wrapSamples.length = 4294967296 := by
  unfold wrapSamples
  exact List.length_replicate _ _

/-! ## C1: count and mean after a run of pushes -/

/-- C1, as stated, fails on the code: from the cleared state, 2^32 samples
leave the stored count at 0 (the `uint32_t` count wraps), and the list of
2^31 - 1 zeros followed by a one leaves the stored mean at -1/2^31 instead of
the arithmetic mean 1/2^31 (the count reaches `int n` as -2^31). -/
theorem C1_counterexample :
    clearedTide.readStat .framMsl = zeroStat
      ∧ ((pushMany clearedTide wrapSamples .framMsl).readStat .framMsl).num = 0
      ∧ wrapSamples.length = 4294967296
      ∧ longSamples ≠ []
      ∧ (pushMany clearedTide longSamples .framMsl).msl.1 = -(1 / 2147483648)
      ∧ arithMean longSamples = 1 / 2147483648 := by
  have h0 : clearedTide.readStat .framMsl = zeroStat := rfl
  refine ⟨h0, ?_, ?_, ?_, ?_, ?_⟩
  · rw [readStat_pushMany, h0,
      foldl_storedAfterPush_num _ _ (by unfold UINT32_SIZE zeroStat; simp)]
    rw [wrapSamples_length]
    norm_num [zeroStat, UINT32_SIZE]
  · exact wrapSamples_length
  · intro h
    have hl := congrArg List.length h
    unfold longSamples at hl
    rw [List.length_append, List.length_replicate] at hl
    simp only [List.length_cons, List.length_nil] at hl
    omega
  · rw [msl_fst, readStat_pushMany, h0, foldl_longSamples]
  · unfold longSamples
    rw [arithMean_replicate_zero_snoc]
    norm_num

/-- C1 (amended): samples `xs` pushed one by one through `pushStats` into a
slot that starts zeroed leave the stored count equal to `length xs` when
`length xs < 2^32`, and the stored mean equal to `sum xs / length xs` when
`0 < length xs < 2^31`; `msl()` returns the stored mean of the MSL slot; for
`[1, 2, 3]` the count is 3 and the mean is 2. -/
theorem C1_count_and_mean (t : TideStats) (a : StatSlot) (xs : List ℚ)
    (h0 : t.readStat a = zeroStat) :
    (xs.length < 4294967296 → ((pushMany t xs a).readStat a).num = xs.length)
      ∧ (xs ≠ [] → xs.length < 2147483648 →
          ((pushMany t xs a).readStat a).mean = arithMean xs)
      ∧ (pushMany t xs .framMsl).msl.1 = ((pushMany t xs .framMsl).readStat .framMsl).mean
      ∧ ((pushMany t [1, 2, 3] a).readStat a).num = 3
      ∧ ((pushMany t [1, 2, 3] a).readStat a).mean = 2 := by
  refine ⟨?_, ?_, msl_fst _, ?_, ?_⟩
  · intro hlen
    rw [readStat_pushMany, h0,
      foldl_storedAfterPush_num _ _ (by unfold UINT32_SIZE zeroStat; simp)]
    unfold zeroStat UINT32_SIZE
    simp only [zero_add]
    exact Nat.mod_eq_of_lt hlen
  · intro hne hlen
    rw [readStat_pushMany, h0, (welford_fold xs hne hlen).2.1]
    rfl
  · rw [readStat_pushMany, h0, (welford_fold [1, 2, 3] (by simp) (by simp)).1]
    rfl
  · rw [readStat_pushMany, h0, (welford_fold [1, 2, 3] (by simp) (by simp)).2.1]
    norm_num

/-- C1 witness: the amended statement at the cleared state, the MSL slot and
the samples `[1, 2, 3]`. -/
theorem C1_count_and_mean_witness :
    clearedTide.readStat .framMsl = zeroStat
      ∧ ((pushMany clearedTide [1, 2, 3] .framMsl).readStat .framMsl).num = 3
      ∧ ((pushMany clearedTide [1, 2, 3] .framMsl).readStat .framMsl).mean = 2 :=
  ⟨rfl, (C1_count_and_mean clearedTide .framMsl [1, 2, 3] rfl).2.2.2.1,
    (C1_count_and_mean clearedTide .framMsl [1, 2, 3] rfl).2.2.2.2⟩

/-! ## C2: sum of squared deviations and standard deviation -/

theorem sub32_one {n : Nat} (h1 : 1 < n) (h : n < UINT32_SIZE) :
    ((sub32 n 1 : Nat) : ℚ) = (n : ℚ) - 1 := by
  have : sub32 n 1 = n - 1 := by
    unfold sub32
    unfold UINT32_SIZE at h ⊢
    omega
  rw [this, Nat.cast_sub (le_of_lt h1), Nat.cast_one]

/-- C2, as stated, fails on the code: from the cleared state, 2^31 - 1 zeros
followed by a one leave the stored `s` at 1 + 1/2^31, while the two-pass sum
of squared deviations of that list is 1 - 1/2^31. -/
theorem C2_counterexample :
    clearedTide.readStat .framMsl = zeroStat
      ∧ ((pushMany clearedTide longSamples .framMsl).readStat .framMsl).s
          = 1 + 1 / 2147483648
      ∧ twoPassSumSq longSamples = 1 - 1 / 2147483648 := by
  have h0 : clearedTide.readStat .framMsl = zeroStat := rfl
  refine ⟨h0, ?_, ?_⟩
  · rw [readStat_pushMany, h0, foldl_longSamples]
  · unfold longSamples
    rw [twoPassSumSq_replicate_zero_snoc]
    norm_num

/-- C2 (amended): for `length xs < 2^31`, samples `xs` pushed through
`pushStats` into a slot that starts zeroed leave the stored `s` equal to the
two-pass sum of squared deviations; on every state each public standard
deviation is `sqrt(s / (n - 1))` of its stored record when `n > 1` and `0` when
`n` is 0 or 1; for `[1, 2, 3]` the standard deviation is `sqrt 1`, that is 1
for a square root with `sqrt 1 = 1`. -/
theorem C2_sumsq_and_stddev (t : TideStats) (a : StatSlot) (xs : List ℚ) (sqrt : ℚ → ℚ)
    (h0 : t.readStat a = zeroStat) (hlen : xs.length < 2147483648) :
    ((pushMany t xs a).readStat a).s = twoPassSumSq xs
      ∧ (∀ u : TideStats, u.framMsl.num < UINT32_SIZE →
          (u.standardDeviationMsl sqrt).1
            = if 1 < u.framMsl.num then sqrt (u.framMsl.s / ((u.framMsl.num : ℚ) - 1)) else 0)
      ∧ (∀ u : TideStats, u.framMllw.num < UINT32_SIZE →
          (u.standardDeviationMllw sqrt).1
            = if 1 < u.framMllw.num then sqrt (u.framMllw.s / ((u.framMllw.num : ℚ) - 1))
              else 0)
      ∧ (∀ u : TideStats, u.framMhhw.num < UINT32_SIZE →
          (u.standardDeviationMhhw sqrt).1
            = if 1 < u.framMhhw.num then sqrt (u.framMhhw.s / ((u.framMhhw.num : ℚ) - 1))
              else 0)
      ∧ (a = .framMsl →
          ((pushMany t [1, 2, 3] a).standardDeviationMsl sqrt).1 = sqrt 1
          ∧ (sqrt 1 = 1 → ((pushMany t [1, 2, 3] a).standardDeviationMsl sqrt).1 = 1)) := by
  have hmsl : ∀ u : TideStats, u.framMsl.num < UINT32_SIZE →
      (u.standardDeviationMsl sqrt).1
        = if 1 < u.framMsl.num then sqrt (u.framMsl.s / ((u.framMsl.num : ℚ) - 1)) else 0 := by
    intro u hu
    unfold TideStats.standardDeviationMsl
    by_cases h : 1 < u.framMsl.num
    · simp [h, sub32_one h hu]
    · simp [h]
  refine ⟨?_, hmsl, ?_, ?_, ?_⟩
  · by_cases hne : xs = []
    · subst hne
      rw [readStat_pushMany, h0]
      simp [twoPassSumSq, zeroStat]
    · rw [readStat_pushMany, h0, (welford_fold xs hne hlen).2.2, twoPassSumSq_eq xs hne]
  · intro u hu
    unfold TideStats.standardDeviationMllw
    by_cases h : 1 < u.framMllw.num
    · simp [h, sub32_one h hu]
    · simp [h]
  · intro u hu
    unfold TideStats.standardDeviationMhhw
    by_cases h : 1 < u.framMhhw.num
    · simp [h, sub32_one h hu]
    · simp [h]
  · intro ha
    subst ha
    obtain ⟨g1, -, g3⟩ := welford_fold [1, 2, 3] (by simp) (by simp)
    have e := readStat_pushMany [1, 2, 3] t .framMsl
    rw [h0] at e
    have e1 : (pushMany t [1, 2, 3] .framMsl).framMsl.num = 3 := by
      have := congrArg stat_t.num e
      rw [g1] at this
      exact this
    have e2 : (pushMany t [1, 2, 3] .framMsl).framMsl.s = 2 := by
      have := congrArg stat_t.s e
      rw [g3] at this
      rw [show (pushMany t [1, 2, 3] .framMsl).framMsl.s
        = ((pushMany t [1, 2, 3] .framMsl).readStat .framMsl).s from rfl, this]
      norm_num
    have hv : ((pushMany t [1, 2, 3] .framMsl).standardDeviationMsl sqrt).1 = sqrt 1 := by
      rw [hmsl _ (by rw [e1]; unfold UINT32_SIZE; omega), e1, e2]
      norm_num
    exact ⟨hv, fun h1 => hv.trans h1⟩

/-- C2 witness: the amended statement at the cleared state, the MSL slot, the
samples `[1, 2, 3]` and the identity as square root (exact at 1). -/
theorem C2_sumsq_and_stddev_witness :
    clearedTide.readStat .framMsl = zeroStat
      ∧ ([1, 2, 3] : List ℚ).length < 2147483648
      ∧ ((pushMany clearedTide [1, 2, 3] .framMsl).readStat .framMsl).s
          = twoPassSumSq [1, 2, 3]
      ∧ ((pushMany clearedTide [1, 2, 3] .framMsl).standardDeviationMsl id).1 = 1 :=
  ⟨rfl, by simp,
    (C2_sumsq_and_stddev clearedTide .framMsl [1, 2, 3] id rfl (by simp)).1,
    ((C2_sumsq_and_stddev clearedTide .framMsl [1, 2, 3] id rfl (by simp)).2.2.2.2 rfl).2 rfl⟩

/-! ## C3: one call of `pushStats` -/

/-- C3, as stated, fails on the code: a slot with count 0 and `s = 5` keeps
`s = 5` after one push (the first-sample branch assigns the mean only), and a
slot with count 2^31 - 1 and mean 0 gets mean -1/2^31 from the sample 1, not
0 + (1 - 0)/2^31 (the count reaches `int n` as -2^31). -/
theorem C3_counterexample :
    (staleTide.readStat .framMsl).num = 0
      ∧ ((staleTide.pushStats 1 .framMsl).2.readStat .framMsl).s = 5
      ∧ (fullTide.readStat .framMsl).num = 2147483647
      ∧ (fullTide.readStat .framMsl).mean = 0
      ∧ ((fullTide.pushStats 1 .framMsl).2.readStat .framMsl).mean = -(1 / 2147483648) := by
  refine ⟨rfl, ?_, rfl, rfl, ?_⟩
  · rw [readStat_pushStats]
    norm_num [storedAfterPush, staleTide, TideStats.readStat, toInt32, UINT32_SIZE]
  · rw [readStat_pushStats]
    norm_num [storedAfterPush, fullTide, TideStats.readStat, toInt32, UINT32_SIZE]

/-- C3 (amended): `pushStats(x)` on a slot whose stored count is 0 stores
(and returns) count 1 and mean `x` and leaves the stored `s` as it was, so
`s = 0` when it was 0; on a slot whose stored count `n` satisfies
`1 <= n` and `n + 1 < 2^31` it stores count `n + 1`,
`mean' = mean + (x - mean)/(n + 1)` and `s' = s + (x - mean) * (x - mean')`. -/
theorem C3_pushStats_step (t : TideStats) (x : ℚ) (a : StatSlot) (n : Nat)
    (hn : (t.readStat a).num = n) :
    (t.pushStats x a).1 = (t.pushStats x a).2.readStat a
      ∧ (n = 0 →
          (t.pushStats x a).2.readStat a = { num := 1, mean := x, s := (t.readStat a).s }
          ∧ ((t.readStat a).s = 0 → ((t.pushStats x a).2.readStat a).s = 0))
      ∧ (1 ≤ n → n + 1 < 2147483648 →
          ((t.pushStats x a).2.readStat a).num = n + 1
          ∧ ((t.pushStats x a).2.readStat a).mean
              = (t.readStat a).mean + (x - (t.readStat a).mean) / ((n : ℚ) + 1)
          ∧ ((t.pushStats x a).2.readStat a).s
              = (t.readStat a).s
                + (x - (t.readStat a).mean) * (x - ((t.pushStats x a).2.readStat a).mean)) := by
  refine ⟨?_, ?_, ?_⟩
  · rw [pushStats_fst, readStat_pushStats]
  · intro h0
    subst h0
    have e : (t.pushStats x a).2.readStat a
        = { num := 1, mean := x, s := (t.readStat a).s } := by
      rw [readStat_pushStats]
      unfold storedAfterPush
      rw [hn]
      norm_num [toInt32, UINT32_SIZE]
    refine ⟨e, fun hs => ?_⟩
    rw [e]
    exact hs
  · intro h1 hlt
    have hmod : ((t.readStat a).num + 1) % UINT32_SIZE = n + 1 := by
      rw [hn]; unfold UINT32_SIZE; omega
    have hint : toInt32 (n + 1) = ((n + 1 : Nat) : Int) := toInt32_of_lt hlt
    have hne : ¬ (((n + 1 : Nat) : Int) = 1) := by omega
    rw [readStat_pushStats]
    unfold storedAfterPush
    rw [hmod, hint, if_neg hne]
    refine ⟨rfl, ?_, ?_⟩
    · simp only [Int.cast_natCast, Nat.cast_add, Nat.cast_one, Int.cast_add, Int.cast_one]
    · simp only [Int.cast_natCast, Nat.cast_add, Nat.cast_one, Int.cast_add, Int.cast_one]

/-- C3 witness: the first push of 1 into the zeroed MSL slot of `blankTide`,
the push of 1 into the MSL slot of `staleTide` (count 0, `s = 5`), and the
push of 3 into the MSL slot that holds the single sample 1. -/
theorem C3_pushStats_step_witness :
    (blankTide.readStat .framMsl).num = 0
      ∧ (blankTide.pushStats 1 .framMsl).2.readStat .framMsl
          = { num := 1, mean := 1, s := 0 }
      ∧ (staleTide.pushStats 1 .framMsl).2.readStat .framMsl
          = { num := 1, mean := 1, s := 5 }
      ∧ ((blankTide.pushStats 1 .framMsl).2.readStat .framMsl).num = 1
      ∧ (((blankTide.pushStats 1 .framMsl).2.pushStats 3 .framMsl).2.readStat .framMsl).num
          = 1 + 1 :=
  ⟨rfl, ((C3_pushStats_step blankTide 1 .framMsl 0 rfl).2.1 rfl).1,
    ((C3_pushStats_step staleTide 1 .framMsl 0 rfl).2.1 rfl).1,
    rfl,
    ((C3_pushStats_step (blankTide.pushStats 1 .framMsl).2 3 .framMsl 1 rfl).2.2
      (le_refl 1) (by norm_num)).1⟩

/-! ## Frame of `pushStats`: it touches one slot and the scratch members -/

@[simp] theorem pushStats_node (t : TideStats) (x : ℚ) (a : StatSlot) :
    (t.pushStats x a).2._node = t._node := by
  simp only [TideStats.pushStats]
  split <;> cases a <;> rfl

@[simp] theorem pushStats_state (t : TideStats) (x : ℚ) (a : StatSlot) :
    (t.pushStats x a).2.state = t.state := by
  simp only [TideStats.pushStats]
  split <;> cases a <;> rfl

@[simp] theorem pushStats_calibDist (t : TideStats) (x : ℚ) (a : StatSlot) :
    (t.pushStats x a).2.calibDist = t.calibDist := by
  simp only [TideStats.pushStats]
  split <;> cases a <;> rfl

@[simp] theorem pushStats_calib (t : TideStats) (x : ℚ) (a : StatSlot) :
    (t.pushStats x a).2.calib = t.calib := by
  simp only [TideStats.pushStats]
  split <;> cases a <;> rfl

@[simp] theorem pushStats_mllwStats (t : TideStats) (x : ℚ) (a : StatSlot) :
    (t.pushStats x a).2.mllwStats = t.mllwStats := by
  simp only [TideStats.pushStats]
  split <;> cases a <;> rfl

@[simp] theorem pushStats_mhhwStats (t : TideStats) (x : ℚ) (a : StatSlot) :
    (t.pushStats x a).2.mhhwStats = t.mhhwStats := by
  simp only [TideStats.pushStats]
  split <;> cases a <;> rfl

@[simp] theorem pushStats_mslStats (t : TideStats) (x : ℚ) (a : StatSlot) :
    (t.pushStats x a).2.mslStats = t.mslStats := by
  simp only [TideStats.pushStats]
  split <;> cases a <;> rfl

@[simp] theorem pushStats_periodDatum (t : TideStats) (x : ℚ) (a : StatSlot) :
    (t.pushStats x a).2.periodDatum = t.periodDatum := by
  simp only [TideStats.pushStats]
  split <;> cases a <;> rfl

@[simp] theorem pushStats_record (t : TideStats) (x : ℚ) (a : StatSlot) :
    (t.pushStats x a).2.record = t.record := by
  simp only [TideStats.pushStats]
  split <;> cases a <;> rfl

@[simp] theorem pushStats_framState (t : TideStats) (x : ℚ) (a : StatSlot) :
    (t.pushStats x a).2.framState = t.framState := by
  simp only [TideStats.pushStats]
  split <;> cases a <;> rfl

@[simp] theorem pushStats_framCalibDist (t : TideStats) (x : ℚ) (a : StatSlot) :
    (t.pushStats x a).2.framCalibDist = t.framCalibDist := by
  simp only [TideStats.pushStats]
  split <;> cases a <;> rfl

@[simp] theorem pushStats_framCalib (t : TideStats) (x : ℚ) (a : StatSlot) :
    (t.pushStats x a).2.framCalib = t.framCalib := by
  simp only [TideStats.pushStats]
  split <;> cases a <;> rfl

@[simp] theorem pushStats_framRecord (t : TideStats) (x : ℚ) (a : StatSlot) :
    (t.pushStats x a).2.framRecord = t.framRecord := by
  simp only [TideStats.pushStats]
  split <;> cases a <;> rfl

@[simp] theorem pushStats_framPeriodDatum (t : TideStats) (x : ℚ) (a : StatSlot) :
    (t.pushStats x a).2.framPeriodDatum = t.framPeriodDatum := by
  simp only [TideStats.pushStats]
  split <;> cases a <;> rfl

@[simp] theorem pushStats_periodEnd (t : TideStats) (x : ℚ) (a : StatSlot) :
    (t.pushStats x a).2.periodEnd = t.periodEnd := by
  simp only [TideStats.pushStats]
  split <;> cases a <;> rfl

@[simp] theorem pushStats_framMllw_framMllw (t : TideStats) (x : ℚ) :
    (t.pushStats x .framMllw).2.framMllw = storedAfterPush x t.framMllw :=
  readStat_pushStats t x .framMllw

@[simp] theorem pushStats_framMllw_framMhhw (t : TideStats) (x : ℚ) :
    (t.pushStats x .framMllw).2.framMhhw = t.framMhhw := by
  simp only [TideStats.pushStats]
  split <;> rfl

@[simp] theorem pushStats_framMllw_framMsl (t : TideStats) (x : ℚ) :
    (t.pushStats x .framMllw).2.framMsl = t.framMsl := by
  simp only [TideStats.pushStats]
  split <;> rfl

@[simp] theorem pushStats_framMhhw_framMllw (t : TideStats) (x : ℚ) :
    (t.pushStats x .framMhhw).2.framMllw = t.framMllw := by
  simp only [TideStats.pushStats]
  split <;> rfl

@[simp] theorem pushStats_framMhhw_framMhhw (t : TideStats) (x : ℚ) :
    (t.pushStats x .framMhhw).2.framMhhw = storedAfterPush x t.framMhhw :=
  readStat_pushStats t x .framMhhw

@[simp] theorem pushStats_framMhhw_framMsl (t : TideStats) (x : ℚ) :
    (t.pushStats x .framMhhw).2.framMsl = t.framMsl := by
  simp only [TideStats.pushStats]
  split <;> rfl

@[simp] theorem pushStats_framMsl_framMllw (t : TideStats) (x : ℚ) :
    (t.pushStats x .framMsl).2.framMllw = t.framMllw := by
  simp only [TideStats.pushStats]
  split <;> rfl

@[simp] theorem pushStats_framMsl_framMhhw (t : TideStats) (x : ℚ) :
    (t.pushStats x .framMsl).2.framMhhw = t.framMhhw := by
  simp only [TideStats.pushStats]
  split <;> rfl

@[simp] theorem pushStats_framMsl_framMsl (t : TideStats) (x : ℚ) :
    (t.pushStats x .framMsl).2.framMsl = storedAfterPush x t.framMsl :=
  readStat_pushStats t x .framMsl

@[simp] theorem pushStats_framMllw_fst (t : TideStats) (x : ℚ) :
    (t.pushStats x .framMllw).1 = storedAfterPush x t.framMllw :=
  pushStats_fst t x .framMllw

@[simp] theorem pushStats_framMhhw_fst (t : TideStats) (x : ℚ) :
    (t.pushStats x .framMhhw).1 = storedAfterPush x t.framMhhw :=
  pushStats_fst t x .framMhhw

@[simp] theorem pushStats_framMsl_fst (t : TideStats) (x : ℚ) :
    (t.pushStats x .framMsl).1 = storedAfterPush x t.framMsl :=
  pushStats_fst t x .framMsl

/-! ## The segmenter: one reading, by rule -/

open TideStats

theorem afterMsl_periodDatum (t : TideStats) (d : ℚ) :
    (afterMsl t d).periodDatum = t.periodDatum := pushStats_periodDatum t d _

theorem afterMsl_periodEnd (t : TideStats) (d : ℚ) :
    (afterMsl t d).periodEnd = t.periodEnd := pushStats_periodEnd t d _

theorem afterMsl_state (t : TideStats) (d : ℚ) :
    (afterMsl t d).state = t.state := pushStats_state t d _

theorem pushDistanceUpwards_rule (t : TideStats) (d : ℚ) (rt : Nat) :
    t.pushDistanceUpwards d rt
      = stampAndSave
          (match segmentRule t rt with
            | .restart => restartBranch (afterMsl t d) d rt
            | .continuePeriod => continueBranch (afterMsl t d) d
            | .closePeriod => closeBranch (afterMsl t d) rt) rt := by
  unfold TideStats.pushDistanceUpwards
  simp only [afterMsl_periodDatum, afterMsl_periodEnd, afterMsl_state]
  unfold segmentRule
  split
  · rfl
  · split <;> rfl

theorem observe_restart (t : TideStats) (d : ℚ) (rt : Nat) (h : segmentRule t rt = .restart) :
    observe (t.pushDistanceUpwards d rt)
      = { node := t._node
          state := { t.state with lastReadingTime := rt }
          calibDist := t.calibDist
          calib := t.calib
          mllwStats := t.mllwStats
          mhhwStats := t.mhhwStats
          mslStats := storedAfterPush d t.framMsl
          periodDatum := { startTime := rt, mllw := d, mhhw := d }
          record := t.record
          framState := { t.state with lastReadingTime := rt }
          framCalibDist := t.framCalibDist
          framCalib := t.calib
          framMllw := t.mllwStats
          framMhhw := t.mhhwStats
          framMsl := storedAfterPush d t.framMsl
          framRecord := t.record
          framPeriodDatum := { startTime := rt, mllw := d, mhhw := d }
          periodEnd := false } := by
  rw [pushDistanceUpwards_rule, h]
  simp [observe, restartBranch, stampAndSave, saveFram, afterMsl]

theorem observe_continue (t : TideStats) (d : ℚ) (rt : Nat)
    (h : segmentRule t rt = .continuePeriod) :
    observe (t.pushDistanceUpwards d rt)
      = { node := t._node
          state := { t.state with lastReadingTime := rt }
          calibDist := t.calibDist
          calib := t.calib
          mllwStats := t.mllwStats
          mhhwStats := t.mhhwStats
          mslStats := storedAfterPush d t.framMsl
          periodDatum :=
            { startTime := t.periodDatum.startTime
              mllw := if d < t.periodDatum.mllw then d else t.periodDatum.mllw
              mhhw := if d > t.periodDatum.mhhw then d else t.periodDatum.mhhw }
          record := t.record
          framState := { t.state with lastReadingTime := rt }
          framCalibDist := t.framCalibDist
          framCalib := t.calib
          framMllw := t.mllwStats
          framMhhw := t.mhhwStats
          framMsl := storedAfterPush d t.framMsl
          framRecord := t.record
          framPeriodDatum :=
            { startTime := t.periodDatum.startTime
              mllw := if d < t.periodDatum.mllw then d else t.periodDatum.mllw
              mhhw := if d > t.periodDatum.mhhw then d else t.periodDatum.mhhw }
          periodEnd := t.periodEnd } := by
  rw [pushDistanceUpwards_rule, h]
  by_cases ha : d < t.periodDatum.mllw <;> by_cases hb : d > t.periodDatum.mhhw <;>
    simp [observe, continueBranch, stampAndSave, saveFram, afterMsl, ha, hb]

theorem observe_close (t : TideStats) (d : ℚ) (rt : Nat)
    (h : segmentRule t rt = .closePeriod) :
    observe (t.pushDistanceUpwards d rt)
      = { node := t._node
          state := { t.state with lastReadingTime := rt }
          calibDist := t.calibDist
          calib := t.calib
          mllwStats := storedAfterPush t.periodDatum.mllw t.framMllw
          mhhwStats := storedAfterPush t.periodDatum.mhhw t.framMhhw
          mslStats := storedAfterPush d t.framMsl
          periodDatum := { t.periodDatum with startTime := rt }
          record := t.record
          framState := { t.state with lastReadingTime := rt }
          framCalibDist := t.framCalibDist
          framCalib := t.calib
          framMllw := storedAfterPush t.periodDatum.mllw t.framMllw
          framMhhw := storedAfterPush t.periodDatum.mhhw t.framMhhw
          framMsl := storedAfterPush d t.framMsl
          framRecord := t.record
          framPeriodDatum := { t.periodDatum with startTime := rt }
          periodEnd := true } := by
  rw [pushDistanceUpwards_rule, h]
  simp [observe, closeBranch, stampAndSave, saveFram, afterMsl]

theorem segmentRule_restart_iff (t : TideStats) (rt : Nat) :
    segmentRule t rt = .restart ↔
      (t.periodDatum.startTime = 0 ∨ t.periodEnd = true
        ∨ sub32 rt t.state.lastReadingTime > DATUM_MAX_GAP_S) := by
  unfold segmentRule
  split
  · simp [*]
  · split <;> simp [*]

theorem segmentRule_continue_iff (t : TideStats) (rt : Nat) :
    segmentRule t rt = .continuePeriod ↔
      (¬ (t.periodDatum.startTime = 0 ∨ t.periodEnd = true
          ∨ sub32 rt t.state.lastReadingTime > DATUM_MAX_GAP_S)
        ∧ sub32 rt t.periodDatum.startTime < DATUM_PERIOD_S) := by
  unfold segmentRule
  split
  · simp [*]
  · split <;> simp [*]

theorem segmentRule_close_iff (t : TideStats) (rt : Nat) :
    segmentRule t rt = .closePeriod ↔
      (¬ (t.periodDatum.startTime = 0 ∨ t.periodEnd = true
          ∨ sub32 rt t.state.lastReadingTime > DATUM_MAX_GAP_S)
        ∧ ¬ sub32 rt t.periodDatum.startTime < DATUM_PERIOD_S) := by
  unfold segmentRule
  split
  · simp [*]
  · split <;> simp [*]

theorem sub32_of_le {a b : Nat} (hb : b ≤ a) (ha : a < UINT32_SIZE) : sub32 a b = a - b := by
  unfold sub32
  unfold UINT32_SIZE at ha ⊢
  omega

theorem fields_of_observe {t : TideStats} {o : Observed} (e : observe t = o) :
    t._node = o.node
      ∧ t.state = o.state
      ∧ t.calibDist = o.calibDist
      ∧ t.calib = o.calib
      ∧ t.mllwStats = o.mllwStats
      ∧ t.mhhwStats = o.mhhwStats
      ∧ t.mslStats = o.mslStats
      ∧ t.periodDatum = o.periodDatum
      ∧ t.record = o.record
      ∧ t.framState = o.framState
      ∧ t.framCalibDist = o.framCalibDist
      ∧ t.framCalib = o.framCalib
      ∧ t.framMllw = o.framMllw
      ∧ t.framMhhw = o.framMhhw
      ∧ t.framMsl = o.framMsl
      ∧ t.framRecord = o.framRecord
      ∧ t.framPeriodDatum = o.framPeriodDatum
      ∧ t.periodEnd = o.periodEnd := by
  subst e
  exact ⟨rfl, rfl, rfl, rfl, rfl, rfl, rfl, rfl, rfl, rfl, rfl, rfl, rfl, rfl, rfl, rfl, rfl, rfl⟩

theorem restart_fields (t : TideStats) (d : ℚ) (rt : Nat)
    (h : segmentRule t rt = .restart) :
    (t.pushDistanceUpwards d rt)._node = t._node
      ∧ (t.pushDistanceUpwards d rt).state = { t.state with lastReadingTime := rt }
      ∧ (t.pushDistanceUpwards d rt).calibDist = t.calibDist
      ∧ (t.pushDistanceUpwards d rt).calib = t.calib
      ∧ (t.pushDistanceUpwards d rt).mllwStats = t.mllwStats
      ∧ (t.pushDistanceUpwards d rt).mhhwStats = t.mhhwStats
      ∧ (t.pushDistanceUpwards d rt).mslStats = storedAfterPush d t.framMsl
      ∧ (t.pushDistanceUpwards d rt).periodDatum = { startTime := rt, mllw := d, mhhw := d }
      ∧ (t.pushDistanceUpwards d rt).record = t.record
      ∧ (t.pushDistanceUpwards d rt).framState = { t.state with lastReadingTime := rt }
      ∧ (t.pushDistanceUpwards d rt).framCalibDist = t.framCalibDist
      ∧ (t.pushDistanceUpwards d rt).framCalib = t.calib
      ∧ (t.pushDistanceUpwards d rt).framMllw = t.mllwStats
      ∧ (t.pushDistanceUpwards d rt).framMhhw = t.mhhwStats
      ∧ (t.pushDistanceUpwards d rt).framMsl = storedAfterPush d t.framMsl
      ∧ (t.pushDistanceUpwards d rt).framRecord = t.record
      ∧ (t.pushDistanceUpwards d rt).framPeriodDatum = { startTime := rt, mllw := d, mhhw := d }
      ∧ (t.pushDistanceUpwards d rt).periodEnd = false :=
  fields_of_observe (observe_restart t d rt h)

theorem continue_fields (t : TideStats) (d : ℚ) (rt : Nat)
    (h : segmentRule t rt = .continuePeriod) :
    (t.pushDistanceUpwards d rt)._node = t._node
      ∧ (t.pushDistanceUpwards d rt).state = { t.state with lastReadingTime := rt }
      ∧ (t.pushDistanceUpwards d rt).calibDist = t.calibDist
      ∧ (t.pushDistanceUpwards d rt).calib = t.calib
      ∧ (t.pushDistanceUpwards d rt).mllwStats = t.mllwStats
      ∧ (t.pushDistanceUpwards d rt).mhhwStats = t.mhhwStats
      ∧ (t.pushDistanceUpwards d rt).mslStats = storedAfterPush d t.framMsl
      ∧ (t.pushDistanceUpwards d rt).periodDatum =
          { startTime := t.periodDatum.startTime
            mllw := if d < t.periodDatum.mllw then d else t.periodDatum.mllw
            mhhw := if d > t.periodDatum.mhhw then d else t.periodDatum.mhhw }
      ∧ (t.pushDistanceUpwards d rt).record = t.record
      ∧ (t.pushDistanceUpwards d rt).framState = { t.state with lastReadingTime := rt }
      ∧ (t.pushDistanceUpwards d rt).framCalibDist = t.framCalibDist
      ∧ (t.pushDistanceUpwards d rt).framCalib = t.calib
      ∧ (t.pushDistanceUpwards d rt).framMllw = t.mllwStats
      ∧ (t.pushDistanceUpwards d rt).framMhhw = t.mhhwStats
      ∧ (t.pushDistanceUpwards d rt).framMsl = storedAfterPush d t.framMsl
      ∧ (t.pushDistanceUpwards d rt).framRecord = t.record
      ∧ (t.pushDistanceUpwards d rt).framPeriodDatum =
          { startTime := t.periodDatum.startTime
            mllw := if d < t.periodDatum.mllw then d else t.periodDatum.mllw
            mhhw := if d > t.periodDatum.mhhw then d else t.periodDatum.mhhw }
      ∧ (t.pushDistanceUpwards d rt).periodEnd = t.periodEnd :=
  fields_of_observe (observe_continue t d rt h)

theorem close_fields (t : TideStats) (d : ℚ) (rt : Nat)
    (h : segmentRule t rt = .closePeriod) :
    (t.pushDistanceUpwards d rt)._node = t._node
      ∧ (t.pushDistanceUpwards d rt).state = { t.state with lastReadingTime := rt }
      ∧ (t.pushDistanceUpwards d rt).calibDist = t.calibDist
      ∧ (t.pushDistanceUpwards d rt).calib = t.calib
      ∧ (t.pushDistanceUpwards d rt).mllwStats = storedAfterPush t.periodDatum.mllw t.framMllw
      ∧ (t.pushDistanceUpwards d rt).mhhwStats = storedAfterPush t.periodDatum.mhhw t.framMhhw
      ∧ (t.pushDistanceUpwards d rt).mslStats = storedAfterPush d t.framMsl
      ∧ (t.pushDistanceUpwards d rt).periodDatum = { t.periodDatum with startTime := rt }
      ∧ (t.pushDistanceUpwards d rt).record = t.record
      ∧ (t.pushDistanceUpwards d rt).framState = { t.state with lastReadingTime := rt }
      ∧ (t.pushDistanceUpwards d rt).framCalibDist = t.framCalibDist
      ∧ (t.pushDistanceUpwards d rt).framCalib = t.calib
      ∧ (t.pushDistanceUpwards d rt).framMllw = storedAfterPush t.periodDatum.mllw t.framMllw
      ∧ (t.pushDistanceUpwards d rt).framMhhw = storedAfterPush t.periodDatum.mhhw t.framMhhw
      ∧ (t.pushDistanceUpwards d rt).framMsl = storedAfterPush d t.framMsl
      ∧ (t.pushDistanceUpwards d rt).framRecord = t.record
      ∧ (t.pushDistanceUpwards d rt).framPeriodDatum = { t.periodDatum with startTime := rt }
      ∧ (t.pushDistanceUpwards d rt).periodEnd = true :=
  fields_of_observe (observe_close t d rt h)

/-! ## `clear` and runs of readings -/

theorem observe_clear (t : TideStats) :
    observe t.clear
      = { node :=
            t._node
          state :=
            { runID := strcpy t.state.runID (List.replicate 16 'F'), mode := gpsmode,
              type := t.state.type, lat := 0, lon := 0, A := 0, k := 0,
              lastReadingTime := 0 }
          calibDist :=
            zeroStat
          calib :=
            { numReadings := 0, totalDurationSec := 0, calibrated := false }
          mllwStats :=
            zeroStat
          mhhwStats :=
            zeroStat
          mslStats :=
            zeroStat
          periodDatum :=
            { startTime := 0, mllw := 0, mhhw := 0 }
          record :=
            { high := 0, highTime := 0, low := 0, lowTime := 0 }
          framState :=
            { runID := strcpy t.state.runID (List.replicate 16 'F'), mode := gpsmode,
              type := t.state.type, lat := 0, lon := 0, A := 0, k := 0,
              lastReadingTime := 0 }
          framCalibDist :=
            t.framCalibDist
          framCalib :=
            { numReadings := 0, totalDurationSec := 0, calibrated := false }
          framMllw :=
            zeroStat
          framMhhw :=
            zeroStat
          framMsl :=
            zeroStat
          framRecord :=
            { high := 0, highTime := 0, low := 0, lowTime := 0 }
          framPeriodDatum :=
            { startTime := 0, mllw := 0, mhhw := 0 }
          periodEnd :=
            t.periodEnd } := by
  simp [observe, TideStats.clear, TideStats.saveFram, zeroStat]

theorem clear_fields (t : TideStats) :
    t.clear._node =
            t._node
      ∧ t.clear.state =
            { runID := strcpy t.state.runID (List.replicate 16 'F'), mode := gpsmode,
              type := t.state.type, lat := 0, lon := 0, A := 0, k := 0,
              lastReadingTime := 0 }
      ∧ t.clear.calibDist =
            zeroStat
      ∧ t.clear.calib =
            { numReadings := 0, totalDurationSec := 0, calibrated := false }
      ∧ t.clear.mllwStats =
            zeroStat
      ∧ t.clear.mhhwStats =
            zeroStat
      ∧ t.clear.mslStats =
            zeroStat
      ∧ t.clear.periodDatum =
            { startTime := 0, mllw := 0, mhhw := 0 }
      ∧ t.clear.record =
            { high := 0, highTime := 0, low := 0, lowTime := 0 }
      ∧ t.clear.framState =
            { runID := strcpy t.state.runID (List.replicate 16 'F'), mode := gpsmode,
              type := t.state.type, lat := 0, lon := 0, A := 0, k := 0,
              lastReadingTime := 0 }
      ∧ t.clear.framCalibDist =
            t.framCalibDist
      ∧ t.clear.framCalib =
            { numReadings := 0, totalDurationSec := 0, calibrated := false }
      ∧ t.clear.framMllw =
            zeroStat
      ∧ t.clear.framMhhw =
            zeroStat
      ∧ t.clear.framMsl =
            zeroStat
      ∧ t.clear.framRecord =
            { high := 0, highTime := 0, low := 0, lowTime := 0 }
      ∧ t.clear.framPeriodDatum =
            { startTime := 0, mllw := 0, mhhw := 0 }
      ∧ t.clear.periodEnd =
            t.periodEnd :=
  fields_of_observe (observe_clear t)

theorem pushReadings_cons (t : TideStats) (r : ℚ × Nat) (rs : List (ℚ × Nat)) :
    pushReadings t (r :: rs) = pushReadings (t.pushDistanceUpwards r.1 r.2) rs := rfl

theorem pushReadings_nil (t : TideStats) : pushReadings t [] = t := rfl

theorem pushReadings_append (t : TideStats) (rs qs : List (ℚ × Nat)) :
    pushReadings t (rs ++ qs) = pushReadings (pushReadings t rs) qs := by
  unfold pushReadings
  rw [List.foldl_append]

theorem pushDistanceUpwards_last (t : TideStats) (d : ℚ) (rt : Nat) :
    (t.pushDistanceUpwards d rt).state.lastReadingTime = rt := by
  cases h : segmentRule t rt with
  | restart => rw [(restart_fields t d rt h).2.1]
  | continuePeriod => rw [(continue_fields t d rt h).2.1]
  | closePeriod => rw [(close_fields t d rt h).2.1]

/-! ## C4: the three-reading scenario -/

/-- C4, as stated, fails on the code: from the cleared state the three
readings of the scenario close no period; afterwards the MLLW and MHHW
accumulators still have count 0 and `periodEnd` is false. -/
theorem C4_counterexample :
    (pushReadings clearedTide scenarioReadings).framMllw.num = 0
      ∧ (pushReadings clearedTide scenarioReadings).framMhhw.num = 0
      ∧ (pushReadings clearedTide scenarioReadings).mllwStats.num = 0
      ∧ (pushReadings clearedTide scenarioReadings).mhhwStats.num = 0
      ∧ (pushReadings clearedTide scenarioReadings).periodEnd = false := by
  refine ⟨?_, ?_, ?_, ?_, ?_⟩ <;> rfl

/-- C4 (amended): after `clear()`, the readings (5, 0), (1, P/2), (3, P+1)
with `P = DATUM_PERIOD_S` each take the restart rule (the first two find
`startTime == 0`, the third comes more than `DATUM_MAX_GAP_S` after the
second), so no period closes: the MLLW and MHHW accumulators stay zeroed (no
push), and afterwards `periodDatum` is `startTime = P + 1`, `mllw = mhhw = 3`
with `periodEnd` false. -/
theorem C4_scenario (t : TideStats) :
    segmentRule t.clear 0 = .restart
      ∧ segmentRule (pushReadings t.clear [(5, 0)]) (DATUM_PERIOD_S / 2) = .restart
      ∧ segmentRule (pushReadings t.clear [(5, 0), (1, DATUM_PERIOD_S / 2)])
          (DATUM_PERIOD_S + 1) = .restart
      ∧ (pushReadings t.clear scenarioReadings).framMllw = zeroStat
      ∧ (pushReadings t.clear scenarioReadings).framMhhw = zeroStat
      ∧ (pushReadings t.clear scenarioReadings).mllwStats = zeroStat
      ∧ (pushReadings t.clear scenarioReadings).mhhwStats = zeroStat
      ∧ (pushReadings t.clear scenarioReadings).periodDatum
          = { startTime := DATUM_PERIOD_S + 1, mllw := 3, mhhw := 3 }
      ∧ (pushReadings t.clear scenarioReadings).framPeriodDatum
          = { startTime := DATUM_PERIOD_S + 1, mllw := 3, mhhw := 3 }
      ∧ (pushReadings t.clear scenarioReadings).periodEnd = false := by
  obtain ⟨-, -, -, -, z5, z6, -, z8, -, -, -, -, -, -, -, -, -, -⟩ := clear_fields t
  unfold scenarioReadings
  simp only [pushReadings_cons, pushReadings_nil]
  have h1 : segmentRule t.clear 0 = .restart := by
    refine (segmentRule_restart_iff _ _).mpr (Or.inl ?_)
    rw [z8]
  obtain ⟨-, -, -, -, a5, a6, -, a8, -, -, -, -, -, -, -, -, -, -⟩ :=
    restart_fields t.clear 5 0 h1
  have h2 : segmentRule (t.clear.pushDistanceUpwards 5 0) (DATUM_PERIOD_S / 2) = .restart := by
    refine (segmentRule_restart_iff _ _).mpr (Or.inl ?_)
    rw [a8]
  obtain ⟨-, -, -, -, b5, b6, -, -, -, -, -, -, -, -, -, -, -, -⟩ :=
    restart_fields _ 1 (DATUM_PERIOD_S / 2) h2
  have h3 : segmentRule ((t.clear.pushDistanceUpwards 5 0).pushDistanceUpwards 1
      (DATUM_PERIOD_S / 2)) (DATUM_PERIOD_S + 1) = .restart := by
    refine (segmentRule_restart_iff _ _).mpr (Or.inr (Or.inr ?_))
    rw [pushDistanceUpwards_last]
    decide
  obtain ⟨-, -, -, -, c5, c6, -, c8, -, -, -, -, c13, c14, -, -, c17, c18⟩ :=
    restart_fields _ 3 (DATUM_PERIOD_S + 1) h3
  refine ⟨h1, h2, h3, ?_, ?_, ?_, ?_, c8, c17, c18⟩
  · exact c13.trans (b5.trans (a5.trans z5))
  · exact c14.trans (b6.trans (a6.trans z6))
  · exact c5.trans (b5.trans (a5.trans z5))
  · exact c6.trans (b6.trans (a6.trans z6))

/-! ## C5: one period of closely spaced readings -/

theorem ite_lt_eq_min (d m : ℚ) : (if d < m then d else m) = min m d := by
  rw [min_def]
  split_ifs <;> linarith

theorem ite_gt_eq_max (d m : ℚ) : (if d > m then d else m) = max m d := by
  rw [max_def]
  split_ifs <;> linarith

theorem listMin_cons (x y : ℚ) (xs : List ℚ) :
    listMin x (y :: xs) = listMin (min x y) xs := rfl

theorem listMax_cons (x y : ℚ) (xs : List ℚ) :
    listMax x (y :: xs) = listMax (max x y) xs := rfl

theorem listMin_le_head (xs : List ℚ) (x : ℚ) : listMin x xs ≤ x := by
  induction xs generalizing x with
  | nil => exact le_refl x
  | cons y ys ih => exact le_trans (ih (min x y)) (min_le_left x y)

theorem listMin_le (xs : List ℚ) (x : ℚ) : ∀ y ∈ x :: xs, listMin x xs ≤ y := by
  induction xs generalizing x with
  | nil =>
    intro y hy
    rw [List.mem_singleton] at hy
    rw [hy]
    exact le_refl x
  | cons z zs ih =>
    intro y hy
    rw [listMin_cons]
    rcases List.mem_cons.mp hy with h | h
    · rw [h]
      exact le_trans (listMin_le_head zs _) (min_le_left x z)
    · rcases List.mem_cons.mp h with h | h
      · rw [h]
        exact le_trans (listMin_le_head zs _) (min_le_right x z)
      · exact ih (min x z) y (List.mem_cons_of_mem _ h)

theorem listMin_mem (xs : List ℚ) (x : ℚ) : listMin x xs ∈ x :: xs := by
  induction xs generalizing x with
  | nil => exact List.mem_singleton.mpr rfl
  | cons z zs ih =>
    rw [listMin_cons]
    rcases List.mem_cons.mp (ih (min x z)) with h | h
    · rw [h]
      rcases min_choice x z with hm | hm
      · rw [hm]; exact List.mem_cons_self _ _
      · rw [hm]; exact List.mem_cons_of_mem _ (List.mem_cons_self _ _)
    · exact List.mem_cons_of_mem _ (List.mem_cons_of_mem _ h)

theorem listMax_ge_head (xs : List ℚ) (x : ℚ) : x ≤ listMax x xs := by
  induction xs generalizing x with
  | nil => exact le_refl x
  | cons y ys ih => exact le_trans (le_max_left x y) (ih (max x y))

theorem listMax_ge (xs : List ℚ) (x : ℚ) : ∀ y ∈ x :: xs, y ≤ listMax x xs := by
  induction xs generalizing x with
  | nil =>
    intro y hy
    rw [List.mem_singleton] at hy
    rw [hy]
    exact le_refl x
  | cons z zs ih =>
    intro y hy
    rw [listMax_cons]
    rcases List.mem_cons.mp hy with h | h
    · rw [h]
      exact le_trans (le_max_left x z) (listMax_ge_head zs _)
    · rcases List.mem_cons.mp h with h | h
      · rw [h]
        exact le_trans (le_max_right x z) (listMax_ge_head zs _)
      · exact ih (max x z) y (List.mem_cons_of_mem _ h)

theorem listMax_mem (xs : List ℚ) (x : ℚ) : listMax x xs ∈ x :: xs := by
  induction xs generalizing x with
  | nil => exact List.mem_singleton.mpr rfl
  | cons z zs ih =>
    rw [listMax_cons]
    rcases List.mem_cons.mp (ih (max x z)) with h | h
    · rw [h]
      rcases max_choice x z with hm | hm
      · rw [hm]; exact List.mem_cons_self _ _
      · rw [hm]; exact List.mem_cons_of_mem _ (List.mem_cons_self _ _)
    · exact List.mem_cons_of_mem _ (List.mem_cons_of_mem _ h)

theorem rule_continue_of_dense (s : TideStats) (rt t1 tl : Nat)
    (hs : s.periodDatum.startTime = t1) (he : s.periodEnd = false)
    (hl : s.state.lastReadingTime = tl) (h0 : 0 < t1) (h1 : t1 ≤ tl) (h2 : tl < rt)
    (hgap : rt - tl ≤ DATUM_MAX_GAP_S) (hrt : rt < UINT32_SIZE)
    (hp : rt - t1 < DATUM_PERIOD_S) :
    segmentRule s rt = .continuePeriod := by
  rw [segmentRule_continue_iff, hs, he, hl, sub32_of_le (le_of_lt h2) hrt,
    sub32_of_le (by omega) hrt]
  refine ⟨?_, hp⟩
  rintro (h | h | h)
  · omega
  · exact absurd h (by decide)
  · omega

theorem rule_close_of_dense (s : TideStats) (rt t1 tl : Nat)
    (hs : s.periodDatum.startTime = t1) (he : s.periodEnd = false)
    (hl : s.state.lastReadingTime = tl) (h0 : 0 < t1) (h1 : t1 ≤ tl) (h2 : tl < rt)
    (hgap : rt - tl ≤ DATUM_MAX_GAP_S) (hrt : rt < UINT32_SIZE)
    (hp : DATUM_PERIOD_S ≤ rt - t1) :
    segmentRule s rt = .closePeriod := by
  rw [segmentRule_close_iff, hs, he, hl, sub32_of_le (le_of_lt h2) hrt,
    sub32_of_le (by omega) hrt]
  refine ⟨?_, by omega⟩
  rintro (h | h | h)
  · omega
  · exact absurd h (by decide)
  · omega

theorem dense_run (t1 : Nat) (rk : ℚ × Nat) (ms : List (ℚ × Nat)) :
    ∀ (s : TideStats) (prev : ℚ × Nat),
      s.periodDatum.startTime = t1 → s.periodEnd = false →
      s.state.lastReadingTime = prev.2 →
      s.mllwStats = zeroStat → s.mhhwStats = zeroStat →
      s.framMllw = zeroStat → s.framMhhw = zeroStat →
      0 < t1 → t1 ≤ prev.2 →
      List.Chain closeInTime prev (ms ++ [rk]) →
      (∀ r ∈ ms, r.2 < UINT32_SIZE ∧ r.2 - t1 < DATUM_PERIOD_S) →
      rk.2 < UINT32_SIZE → DATUM_PERIOD_S ≤ rk.2 - t1 →
      observe (pushReadings s (ms ++ [rk]))
          = { observe (pushReadings s (ms ++ [rk])) with
              mllwStats := { num := 1, mean := listMin s.periodDatum.mllw (ms.map Prod.fst),
                             s := 0 }
              mhhwStats := { num := 1, mean := listMax s.periodDatum.mhhw (ms.map Prod.fst),
                             s := 0 }
              framMllw := { num := 1, mean := listMin s.periodDatum.mllw (ms.map Prod.fst),
                            s := 0 }
              framMhhw := { num := 1, mean := listMax s.periodDatum.mhhw (ms.map Prod.fst),
                            s := 0 }
              periodDatum := { startTime := rk.2
                               mllw := listMin s.periodDatum.mllw (ms.map Prod.fst)
                               mhhw := listMax s.periodDatum.mhhw (ms.map Prod.fst) }
              framPeriodDatum := { startTime := rk.2
                                   mllw := listMin s.periodDatum.mllw (ms.map Prod.fst)
                                   mhhw := listMax s.periodDatum.mhhw (ms.map Prod.fst) }
              state := { s.state with lastReadingTime := rk.2 }
              periodEnd := true }
        ∧ ∀ p q, ms ++ [rk] = p ++ q → q ≠ [] →
            (pushReadings s p).framMllw = zeroStat ∧ (pushReadings s p).framMhhw = zeroStat
              ∧ (pushReadings s p).mllwStats = zeroStat
              ∧ (pushReadings s p).mhhwStats = zeroStat := by
  induction ms with
  | nil =>
    intro s prev hs he hl hm1 hm2 hf1 hf2 h0 h1 hch _ hk hend
    have hc : closeInTime prev rk := by
      simpa using hch
    obtain ⟨hc1, hc2⟩ := hc
    have hr : segmentRule s rk.2 = .closePeriod :=
      rule_close_of_dense s rk.2 t1 prev.2 hs he hl h0 h1 hc1 hc2 hk hend
    refine ⟨?_, ?_⟩
    · simp only [List.nil_append, pushReadings_cons, pushReadings_nil, List.map_nil, listMin,
        listMax, List.foldl_nil]
      rw [observe_close s rk.1 rk.2 hr, hf1, hf2, storedAfterPush_zero, storedAfterPush_zero]
    · intro p q hpq hq
      have hp : p = [] := by
        cases p with
        | nil => rfl
        | cons a p' =>
          exfalso
          have hlen := congrArg List.length hpq
          simp only [List.nil_append, List.length_cons, List.length_nil, List.length_append] at hlen
          have : 0 < q.length := List.length_pos.mpr hq
          omega
      subst hp
      exact ⟨hf1, hf2, hm1, hm2⟩
  | cons r ms ih =>
    intro s prev hs he hl hm1 hm2 hf1 hf2 h0 h1 hch hmid hk hend
    rw [List.cons_append, List.chain_cons] at hch
    obtain ⟨⟨hc1, hc2⟩, hch'⟩ := hch
    obtain ⟨hr32, hrp⟩ := hmid r (List.mem_cons_self _ _)
    have hr : segmentRule s r.2 = .continuePeriod :=
      rule_continue_of_dense s r.2 t1 prev.2 hs he hl h0 h1 hc1 hc2 hr32 hrp
    obtain ⟨-, -, -, -, c5, c6, -, c8, -, -, -, -, c13, c14, -, -, -, c18⟩ :=
      continue_fields s r.1 r.2 hr
    have hstate := (continue_fields s r.1 r.2 hr).2.1
    obtain ⟨ih1, ih2⟩ := ih (s.pushDistanceUpwards r.1 r.2) r
      (by rw [c8]; exact hs) (by rw [c18]; exact he) (pushDistanceUpwards_last s r.1 r.2)
      (c5.trans hm1) (c6.trans hm2) (c13.trans hm1) (c14.trans hm2) h0 (by omega) hch'
      (fun r' hr' => hmid r' (List.mem_cons_of_mem _ hr')) hk hend
    refine ⟨?_, ?_⟩
    · rw [List.cons_append, pushReadings_cons, ih1, c8, hstate]
      simp only [List.map_cons, listMin_cons, listMax_cons, ite_lt_eq_min, ite_gt_eq_max]
    · intro p q hpq hq
      cases p with
      | nil => exact ⟨hf1, hf2, hm1, hm2⟩
      | cons a p' =>
        rw [List.cons_append, List.cons_append] at hpq
        obtain ⟨ha, hpq'⟩ := List.cons.inj hpq
        subst ha
        rw [pushReadings_cons]
        exact ih2 p' q hpq' hq

/-- C5, as stated, fails on the code: from the cleared state the readings
(5, 1) and (3, 90001) have strictly increasing timestamps exactly one period
apart, yet no period closes (the second reading comes more than
`DATUM_MAX_GAP_S` after the first and restarts the period): the MLLW and MHHW
accumulators still have count 0. -/
theorem C5_counterexample :
    sparseReadings = [(5, 1), (3, 90001)]
      ∧ (1 : Nat) < 90001
      ∧ DATUM_PERIOD_S ≤ 90001 - 1
      ∧ (pushReadings clearedTide sparseReadings).framMllw.num = 0
      ∧ (pushReadings clearedTide sparseReadings).framMhhw.num = 0
      ∧ (pushReadings clearedTide sparseReadings).mllwStats.num = 0
      ∧ (pushReadings clearedTide sparseReadings).mhhwStats.num = 0 := by
  refine ⟨rfl, by decide, by decide, ?_, ?_, ?_, ?_⟩ <;> rfl

/-- C5 (amended): after `clear()`, let readings `r1, ms..., rk` have a first
timestamp that is not 0, timestamps that are `uint32_t` values, each reading
later than the one before it by at most `DATUM_MAX_GAP_S` seconds, every
reading before the last less than `DATUM_PERIOD_S` after the first and the
last one at least `DATUM_PERIOD_S` after the first. Then the MLLW and MHHW
accumulators each receive exactly one push: they are still zeroed after every
proper initial part of the sequence, and after the whole sequence they hold
count 1 with the minimum, respectively the maximum, of the values before the
last reading. -/
theorem C5_one_period (t : TideStats) (r1 rk : ℚ × Nat) (ms : List (ℚ × Nat))
    (h1 : 0 < r1.2)
    (hch : List.Chain closeInTime r1 (ms ++ [rk]))
    (hmid : ∀ r ∈ ms, r.2 < UINT32_SIZE ∧ r.2 - r1.2 < DATUM_PERIOD_S)
    (hk : rk.2 < UINT32_SIZE) (hend : DATUM_PERIOD_S ≤ rk.2 - r1.2) :
    (pushReadings t.clear (r1 :: (ms ++ [rk]))).framMllw
        = storedAfterPush (listMin r1.1 (ms.map Prod.fst)) zeroStat
      ∧ (pushReadings t.clear (r1 :: (ms ++ [rk]))).framMhhw
        = storedAfterPush (listMax r1.1 (ms.map Prod.fst)) zeroStat
      ∧ (pushReadings t.clear (r1 :: (ms ++ [rk]))).framMllw
        = { num := 1, mean := listMin r1.1 (ms.map Prod.fst), s := 0 }
      ∧ (pushReadings t.clear (r1 :: (ms ++ [rk]))).framMhhw
        = { num := 1, mean := listMax r1.1 (ms.map Prod.fst), s := 0 }
      ∧ (∀ p q, r1 :: (ms ++ [rk]) = p ++ q → q ≠ [] →
          (pushReadings t.clear p).framMllw = zeroStat
            ∧ (pushReadings t.clear p).framMhhw = zeroStat)
      ∧ (∀ y ∈ r1.1 :: ms.map Prod.fst, listMin r1.1 (ms.map Prod.fst) ≤ y)
      ∧ listMin r1.1 (ms.map Prod.fst) ∈ r1.1 :: ms.map Prod.fst
      ∧ (∀ y ∈ r1.1 :: ms.map Prod.fst, y ≤ listMax r1.1 (ms.map Prod.fst))
      ∧ listMax r1.1 (ms.map Prod.fst) ∈ r1.1 :: ms.map Prod.fst := by
  obtain ⟨-, -, -, -, z5, z6, -, z8, -, -, -, -, z13, z14, -, -, -, -⟩ := clear_fields t
  have hr : segmentRule t.clear r1.2 = .restart := by
    refine (segmentRule_restart_iff _ _).mpr (Or.inl ?_)
    rw [z8]
  obtain ⟨-, -, -, -, a5, a6, -, a8, -, -, -, -, a13, a14, -, -, -, a18⟩ :=
    restart_fields t.clear r1.1 r1.2 hr
  obtain ⟨d1, d2⟩ := dense_run r1.2 rk ms (t.clear.pushDistanceUpwards r1.1 r1.2) r1
    (by rw [a8]) a18 (pushDistanceUpwards_last _ _ _)
    (a5.trans z5) (a6.trans z6) (a13.trans z5) (a14.trans z6) h1 (le_refl _) hch hmid hk hend
  rw [a8] at d1
  obtain ⟨-, -, -, -, -, -, -, -, -, -, -, -, e13, e14, -, -, -, -⟩ := fields_of_observe d1
  rw [pushReadings_cons, storedAfterPush_zero, storedAfterPush_zero]
  refine ⟨e13, e14, e13, e14, ?_, listMin_le _ _, listMin_mem _ _, listMax_ge _ _,
    listMax_mem _ _⟩
  intro p q hpq hq
  cases p with
  | nil =>
    rw [pushReadings_nil]
    exact ⟨z13, z14⟩
  | cons a p' =>
    rw [List.cons_append] at hpq
    obtain ⟨ha, hpq'⟩ := List.cons.inj hpq
    subst ha
    rw [pushReadings_cons]
    exact ⟨(d2 p' q hpq' hq).1, (d2 p' q hpq' hq).2.1⟩

/-- C5 witness: from the cleared state, 5 at 1 s, then hourly readings
(1, 7, 4, ...) up to 86401 s, then 3 at 90001 s: one push each, of the
minimum 1 and of the maximum 7. -/
theorem C5_one_period_witness :
    (0 : Nat) < 1
      ∧ List.Chain closeInTime ((5 : ℚ), 1) (hourlyReadings ++ [((3 : ℚ), 90001)])
      ∧ DATUM_PERIOD_S ≤ 90001 - 1
      ∧ (pushReadings blankTide.clear
          ((5, 1) :: (hourlyReadings ++ [(3, 90001)]))).framMllw
          = { num := 1, mean := 1, s := 0 }
      ∧ (pushReadings blankTide.clear
          ((5, 1) :: (hourlyReadings ++ [(3, 90001)]))).framMhhw
          = { num := 1, mean := 7, s := 0 } := by
  have hch : List.Chain closeInTime ((5 : ℚ), 1) (hourlyReadings ++ [((3 : ℚ), 90001)]) := by
    simp [hourlyReadings, List.range, List.range.loop, closeInTime, DATUM_MAX_GAP_S]
  have hmid : ∀ r ∈ hourlyReadings, r.2 < UINT32_SIZE ∧ r.2 - 1 < DATUM_PERIOD_S := by
    simp [hourlyReadings, List.range, List.range.loop, UINT32_SIZE, DATUM_PERIOD_S]
  have h := C5_one_period blankTide (5, 1) (3, 90001) hourlyReadings (by decide) hch hmid
    (by decide) (by decide)
  have e1 : listMin 5 (hourlyReadings.map Prod.fst) = 1 := by
    norm_num [listMin, hourlyReadings, List.range, List.range.loop]
  have e2 : listMax 5 (hourlyReadings.map Prod.fst) = 7 := by
    norm_num [listMax, hourlyReadings, List.range, List.range.loop]
  refine ⟨by decide, hch, by decide, ?_, ?_⟩
  · rw [h.2.2.1, e1]
  · rw [h.2.2.2.1, e2]

/-! ## C6: a gap longer than `DATUM_MAX_GAP_S` restarts the period -/

/-- C6: when `readingTime - state.lastReadingTime` (the `uint32_t` difference
the source computes) exceeds `DATUM_MAX_GAP_S`, `pushDistanceUpwards` takes
the restart rule whatever the period's `startTime` is: afterwards
`periodDatum` (in memory and persisted) has `startTime = readingTime` and
`mllw = mhhw = distUp`, `periodEnd` is false, and the MLLW and MHHW
accumulators are not pushed: the records `mllwStats` and `mhhwStats` are
unchanged, and the persisted slots hold those unchanged records (which are
the slots' previous contents when memory and slots agreed before the call). -/
theorem C6_gap_restarts (t : TideStats) (distUp : ℚ) (readingTime : Nat)
    (h : DATUM_MAX_GAP_S < sub32 readingTime t.state.lastReadingTime) :
    segmentRule t readingTime = .restart
      ∧ (t.pushDistanceUpwards distUp readingTime).periodDatum
          = { startTime := readingTime, mllw := distUp, mhhw := distUp }
      ∧ (t.pushDistanceUpwards distUp readingTime).framPeriodDatum
          = { startTime := readingTime, mllw := distUp, mhhw := distUp }
      ∧ (t.pushDistanceUpwards distUp readingTime).periodEnd = false
      ∧ (t.pushDistanceUpwards distUp readingTime).mllwStats = t.mllwStats
      ∧ (t.pushDistanceUpwards distUp readingTime).mhhwStats = t.mhhwStats
      ∧ (t.pushDistanceUpwards distUp readingTime).framMllw = t.mllwStats
      ∧ (t.pushDistanceUpwards distUp readingTime).framMhhw = t.mhhwStats
      ∧ (t.framMllw = t.mllwStats →
          (t.pushDistanceUpwards distUp readingTime).framMllw = t.framMllw)
      ∧ (t.framMhhw = t.mhhwStats →
          (t.pushDistanceUpwards distUp readingTime).framMhhw = t.framMhhw) := by
  have hr : segmentRule t readingTime = .restart :=
    (segmentRule_restart_iff _ _).mpr (Or.inr (Or.inr h))
  obtain ⟨-, -, -, -, a5, a6, -, a8, -, -, -, -, a13, a14, -, -, a17, a18⟩ :=
    restart_fields t distUp readingTime hr
  exact ⟨hr, a8, a17, a18, a5, a6, a13, a14, fun e => a13.trans e.symm,
    fun e => a14.trans e.symm⟩

theorem oneReadingTide_last : oneReadingTide.state.lastReadingTime = 1 :=
  pushDistanceUpwards_last _ _ _

/-- C6 witness: in the cleared state after the reading 5 at 1 s, the reading
3 at 90001 s comes a whole period later (the close rule would apply without
the gap) and restarts the period. -/
theorem C6_gap_restarts_witness :
    DATUM_MAX_GAP_S < sub32 90001 oneReadingTide.state.lastReadingTime
      ∧ ¬ sub32 90001 oneReadingTide.periodDatum.startTime < DATUM_PERIOD_S
      ∧ (oneReadingTide.pushDistanceUpwards 3 90001).periodDatum
          = { startTime := 90001, mllw := 3, mhhw := 3 }
      ∧ (oneReadingTide.pushDistanceUpwards 3 90001).periodEnd = false
      ∧ (oneReadingTide.pushDistanceUpwards 3 90001).framMllw = oneReadingTide.framMllw :=
  have h : DATUM_MAX_GAP_S < sub32 90001 oneReadingTide.state.lastReadingTime := by
    rw [oneReadingTide_last]
    decide
  ⟨h, by decide,
    (C6_gap_restarts oneReadingTide 3 90001 h).2.1,
    (C6_gap_restarts oneReadingTide 3 90001 h).2.2.2.1,
    (C6_gap_restarts oneReadingTide 3 90001 h).2.2.2.2.2.2.2.2.1 (by rfl)⟩

/-! ## C7: an abrupt restart directly after a period closed -/

set_option maxRecDepth 100000

/-- C7 fails on the code at this input: `closedTide` is reached from a cleared
and initialised state by readings of which the last closed a period
(`periodEnd` is true; the node is ready and the persisted owner matches).
Without a restart the next reading (2 at 90002 s) takes the restart rule and
persists `PeriodDatum = (90002, 2, 2)`; after an abrupt restart `periodEnd`
is false again, the same reading takes the continue rule and persists
`PeriodDatum = (90001, 1, 7)`, the extrema of the period that was closed. -/
theorem C7_restart_after_close_diverges :
    closedTide.periodEnd = true
      ∧ closedTide._node.ok = true
      ∧ cString closedTide.framState.runID = closedTide._node.nodeID
      ∧ (powerCycle closedTide blankTide).periodEnd = false
      ∧ segmentRule closedTide 90002 = .restart
      ∧ segmentRule (powerCycle closedTide blankTide) 90002 = .continuePeriod
      ∧ (closedTide.pushDistanceUpwards 2 90002).framPeriodDatum
          = { startTime := 90002, mllw := 2, mhhw := 2 }
      ∧ ((powerCycle closedTide blankTide).pushDistanceUpwards 2 90002).framPeriodDatum
          = { startTime := 90001, mllw := 1, mhhw := 7 } := by
  refine ⟨?_, ?_, ?_, ?_, ?_, ?_, ?_, ?_⟩ <;> rfl

/-! ## C8: `clear` -/

/-- C8: after `clear()` the MLLW, MHHW and MSL accumulators are zeroed in
memory and in their persisted slots (count 0), `mllw()`, `mhhw()` and `msl()`
return 0, the three standard deviations are 0, `isCalibrated()` is false, and
`PeriodDatum`, the extreme record and `lastReadingTime` are zero in memory
and in their persisted slots. -/
theorem C8_clear_zeroes (t : TideStats) (sqrt : ℚ → ℚ) :
    t.clear.mllwStats = zeroStat ∧ t.clear.mhhwStats = zeroStat ∧ t.clear.mslStats = zeroStat
      ∧ t.clear.framMllw = zeroStat ∧ t.clear.framMhhw = zeroStat ∧ t.clear.framMsl = zeroStat
      ∧ t.clear.mllwStats.num = 0 ∧ t.clear.mhhwStats.num = 0 ∧ t.clear.mslStats.num = 0
      ∧ t.clear.framMllw.num = 0 ∧ t.clear.framMhhw.num = 0 ∧ t.clear.framMsl.num = 0
      ∧ t.clear.mllw.1 = 0 ∧ t.clear.mhhw.1 = 0 ∧ t.clear.msl.1 = 0
      ∧ (t.clear.standardDeviationMllw sqrt).1 = 0
      ∧ (t.clear.standardDeviationMhhw sqrt).1 = 0
      ∧ (t.clear.standardDeviationMsl sqrt).1 = 0
      ∧ t.clear.isCalibrated = false
      ∧ t.clear.periodDatum = { startTime := 0, mllw := 0, mhhw := 0 }
      ∧ t.clear.framPeriodDatum = { startTime := 0, mllw := 0, mhhw := 0 }
      ∧ t.clear.record = { high := 0, highTime := 0, low := 0, lowTime := 0 }
      ∧ t.clear.framRecord = { high := 0, highTime := 0, low := 0, lowTime := 0 }
      ∧ t.clear.state.lastReadingTime = 0
      ∧ t.clear.framState.lastReadingTime = 0 := by
  obtain ⟨-, z2, -, z4, z5, z6, z7, z8, z9, z10, -, -, z13, z14, z15, z16, z17, -⟩ :=
    clear_fields t
  refine ⟨z5, z6, z7, z13, z14, z15, ?_, ?_, ?_, ?_, ?_, ?_, ?_, ?_, ?_, ?_, ?_, ?_, ?_,
    z8, z17, z9, z16, ?_, ?_⟩
  · rw [z5]; rfl
  · rw [z6]; rfl
  · rw [z7]; rfl
  · rw [z13]; rfl
  · rw [z14]; rfl
  · rw [z15]; rfl
  · rw [mllw_fst]
    show t.clear.framMllw.mean = 0
    rw [z13]; rfl
  · rw [mhhw_fst]
    show t.clear.framMhhw.mean = 0
    rw [z14]; rfl
  · rw [msl_fst]
    show t.clear.framMsl.mean = 0
    rw [z15]; rfl
  · simp [TideStats.standardDeviationMllw, z13, zeroStat]
  · simp [TideStats.standardDeviationMhhw, z14, zeroStat]
  · simp [TideStats.standardDeviationMsl, z15, zeroStat]
  · unfold TideStats.isCalibrated
    rw [z4]
  · rw [z2]
  · rw [z10]

/-! ## C9: `initialize` with a foreign owner -/

/-- C9 fails on the code at a device identifier of 16 characters: the node
is ready and the persisted owner differs, `initialize()` returns true, but
`toCharArray(state.runID, 16)` stores only the first 15 characters, so the
persisted owner differs from the device identifier; a reading then brings the
MSL count to 1, and the next `initialize()` with the same identifier finds a
mismatch again and resets the count to 0. -/
theorem C9_owner_truncated :
    deviceId16.length = 16
      ∧ newTide16._node.ok = true
      ∧ cString newTide16.framState.runID ≠ newTide16._node.nodeID
      ∧ newTide16.initializeNode.1 = true
      ∧ cString newTide16.initializeNode.2.framState.runID = deviceId16.take 15
      ∧ cString newTide16.initializeNode.2.framState.runID ≠ deviceId16
      ∧ newTide16.initializeNode.2._node.nodeID = deviceId16
      ∧ (newTide16.initializeNode.2.pushDistanceUpwards 5 1).framMsl.num = 1
      ∧ (newTide16.initializeNode.2.pushDistanceUpwards 5 1).initializeNode.2.framMsl.num
          = 0 := by
  refine ⟨?_, ?_, ?_, ?_, ?_, ?_, ?_, ?_, ?_⟩ <;> decide

/-! ## C10: the calibration countdown -/

/-- The countdown on two hand-made states: with a persisted MLLW record of
count 1 and mean 0 it is 25 hours at clock 0, and with a persisted record of
count 0 and mean 3 it is 0, where the formula gives 25 hours. -/
theorem hoursLeft_handmade_states :
    zeroMeanTide.framMllw.num = 1
      ∧ (zeroMeanTide.mllwCalibrationHoursLeft 0).1 = 25
      ∧ staleMeanTide.framMllw.num = 0
      ∧ (staleMeanTide.mllwCalibrationHoursLeft 0).1 = 0
      ∧ ((DATUM_PERIOD_S : ℚ) - (sub32 0 staleMeanTide.periodDatum.startTime : ℚ)) / 3600
          = 25 := by
  refine ⟨rfl, ?_, rfl, ?_, ?_⟩
  · norm_num [TideStats.mllwCalibrationHoursLeft, TideStats.mllw, zeroMeanTide, blankTide,
      sub32, UINT32_SIZE, DATUM_PERIOD_S]
  · norm_num [TideStats.mllwCalibrationHoursLeft, TideStats.mllw, staleMeanTide, blankTide]
  · norm_num [staleMeanTide, blankTide, sub32, UINT32_SIZE, DATUM_PERIOD_S]

/-- What `mllwCalibrationHoursLeft()` computes: its guard is `mllw() == 0`,
the persisted MLLW mean. It returns
`(DATUM_PERIOD_S - (now - periodDatum.startTime)) / 3600` (the difference
taken on `uint32_t`) when that mean is 0, in particular when the persisted
MLLW record is zeroed, and 0 when that mean is not 0; the call reloads
`mllwStats` from its slot and changes nothing else. -/
theorem hoursLeft_by_mean (t : TideStats) (now : Nat) :
    (t.mllwCalibrationHoursLeft now).1
        = (if t.framMllw.mean = 0 then
            ((DATUM_PERIOD_S : ℚ) - (sub32 now t.periodDatum.startTime : ℚ)) / 3600
          else 0)
      ∧ (t.framMllw = zeroStat →
          (t.mllwCalibrationHoursLeft now).1
            = ((DATUM_PERIOD_S : ℚ) - (sub32 now t.periodDatum.startTime : ℚ)) / 3600)
      ∧ (t.framMllw.mean ≠ 0 → (t.mllwCalibrationHoursLeft now).1 = 0)
      ∧ (t.mllwCalibrationHoursLeft now).2 = { t with mllwStats := t.framMllw } := by
  have e : (t.mllwCalibrationHoursLeft now).1
        = (if t.framMllw.mean = 0 then
            ((DATUM_PERIOD_S : ℚ) - (sub32 now t.periodDatum.startTime : ℚ)) / 3600
          else 0) := by
    unfold TideStats.mllwCalibrationHoursLeft TideStats.mllw
    by_cases h : t.framMllw.mean = 0
    · simp [h]
    · simp [h]
  refine ⟨e, ?_, ?_, ?_⟩
  · intro hz
    rw [e, hz]
    simp [zeroStat]
  · intro hne
    rw [e, if_neg hne]
  · unfold TideStats.mllwCalibrationHoursLeft TideStats.mllw
    by_cases h : t.framMllw.mean = 0
    · simp [h]
    · simp [h]

theorem firstMllwTide_slot :
    firstMllwTide.framMllw = { num := 1, mean := 0, s := 0 }
      ∧ firstMllwTide.periodDatum.startTime = 90001
      ∧ firstMllwTide.periodEnd = true := by
  refine ⟨?_, ?_, ?_⟩ <;> rfl

theorem clearedTide_slot :
    clearedTide.framMllw = zeroStat ∧ clearedTide.periodDatum.startTime = 0 := by
  constructor <;> rfl

/-- C10 fails on the code at this input: `firstMllwTide` is reached from the
cleared state by one closed period whose readings are all 0, so the persisted
MLLW accumulator holds its first value (count 1, mean 0). At clock 90001 s,
the time of the closing reading, `mllwCalibrationHoursLeft()` still returns
the countdown, 25 hours, because its guard `mllw() == 0` tests the mean; the
claim (and the header's "hours left for the first mllw") gives 0 once the
count is above 0. In the cleared state (count 0) the same call returns the
countdown, as the claim says. -/
theorem C10_countdown_after_first_mllw :
    firstMllwTide.framMllw.num = 1
      ∧ firstMllwTide.framMllw.mean = 0
      ∧ firstMllwTide.periodDatum.startTime = 90001
      ∧ (firstMllwTide.mllwCalibrationHoursLeft 90001).1 = 25
      ∧ (firstMllwTide.mllwCalibrationHoursLeft 90001).1 ≠ 0
      ∧ clearedTide.framMllw.num = 0
      ∧ (clearedTide.mllwCalibrationHoursLeft 3600).1
          = ((DATUM_PERIOD_S : ℚ) - ((sub32 3600 clearedTide.periodDatum.startTime : Nat) : ℚ))
              / 3600 := by
  obtain ⟨e1, e2, -⟩ := firstMllwTide_slot
  obtain ⟨z1, -⟩ := clearedTide_slot
  have h25 : (firstMllwTide.mllwCalibrationHoursLeft 90001).1 = 25 := by
    rw [(hoursLeft_by_mean firstMllwTide 90001).1, e1, e2]
    norm_num [sub32, UINT32_SIZE, DATUM_PERIOD_S]
  refine ⟨by rw [e1], by rw [e1], e2, h25, ?_, by rw [z1]; rfl, ?_⟩
  · rw [h25]
    norm_num
  · exact (hoursLeft_by_mean clearedTide 3600).2.1 z1

/-! ## Supporting facts: owners of up to 15 characters, restarts inside a period -/

theorem takeWhile_append_nul (xs rest : List Char) (h : ∀ c ∈ xs, c ≠ NUL) :
    cString (xs ++ NUL :: rest) = xs := by
  unfold cString
  induction xs with
  | nil => simp
  | cons x xs ih =>
    have hx : x ≠ NUL := h x (List.mem_cons_self _ _)
    simp only [List.cons_append, List.takeWhile_cons, hx, ne_eq, not_false_eq_true,
      decide_True, if_true]
    rw [ih (fun c hc => h c (List.mem_cons_of_mem _ hc))]

theorem cString_toCharArray (str buf : List Char) (hlen : str.length ≤ 15)
    (hnul : ∀ c ∈ str, c ≠ NUL) (hbuf : 17 ≤ buf.length) :
    cString (toCharArray str buf 16) = str := by
  unfold toCharArray
  by_cases h0 : str.length = 0
  · have hs : str = [] := List.length_eq_zero.mp h0
    subst hs
    cases buf with
    | nil => simp at hbuf
    | cons b bs => simp [cString]
  · have hn : (if 16 - 1 > str.length then str.length else 16 - 1) = str.length := by
      split <;> omega
    simp only [hn, List.take_length]
    have hlt : str.length < buf.length := by omega
    have hd : ∃ b bs, buf.drop str.length = b :: bs := by
      cases hdr : buf.drop str.length with
      | nil =>
        have := congrArg List.length hdr
        simp only [List.length_drop, List.length_nil] at this
        omega
      | cons b bs => exact ⟨b, bs, rfl⟩
    obtain ⟨b, bs, hb⟩ := hd
    have h16 : ¬ (16 = 0) := by omega
    have hge : ¬ (0 ≥ str.length) := by omega
    rw [if_neg h16, if_neg hge, hb, List.set_cons_zero]
    exact takeWhile_append_nul str bs hnul

theorem strcpy_length (dst : List Char) : 17 ≤ (strcpy dst (List.replicate 16 'F')).length := by
  unfold strcpy
  simp only [List.length_append, List.length_replicate, List.length_cons]
  omega

theorem initializeNode_mismatch (t : TideStats) (hok : t._node.ok = true)
    (hne : cString t.framState.runID ≠ t._node.nodeID) :
    t.initializeNode
      = (true, TideStats.saveFram
          { t.loadFram.clear with
            state := { t.loadFram.clear.state with
              runID := toCharArray t._node.nodeID t.loadFram.clear.state.runID 16 } }) := by
  have hne2 : ¬ (cString t.loadFram.state.runID = t.loadFram._node.nodeID) := hne
  have hok2 : t._node.ok = true := hok
  unfold TideStats.initializeNode
  rw [if_pos hok2]
  simp only [hne2, not_false_eq_true, if_true]
  rfl

theorem initializeNode_match (t : TideStats) (hok : t._node.ok = true)
    (he : cString t.framState.runID = t._node.nodeID) :
    t.initializeNode = (true, t.loadFram) := by
  have he2 : cString t.loadFram.state.runID = t.loadFram._node.nodeID := he
  unfold TideStats.initializeNode
  rw [if_pos hok]
  simp only [he2, not_true_eq_false, if_false]

theorem observe_initializeNode_mismatch (t : TideStats) (hok : t._node.ok = true)
    (hne : cString t.framState.runID ≠ t._node.nodeID) :
    observe t.initializeNode.2
      = { observe t.loadFram.clear with
          state := { t.loadFram.clear.state with
            runID := toCharArray t._node.nodeID
              (strcpy t.framState.runID (List.replicate 16 'F')) 16 }
          framState := { t.loadFram.clear.state with
            runID := toCharArray t._node.nodeID
              (strcpy t.framState.runID (List.replicate 16 'F')) 16 } } := by
  rw [initializeNode_mismatch t hok hne]
  have hs := (clear_fields t.loadFram).2.1
  simp [observe, TideStats.saveFram, hs, TideStats.clear, TideStats.loadFram]

/-- For a device identifier of at most 15 characters (none of them the
terminating byte), `initialize()` on a ready node whose persisted owner
differs returns true, persists the device identifier as owner, leaves the
accumulators, `PeriodDatum`, the extreme record and the calibration state
zeroed, and an immediately following `initialize()` finds a match and only
reloads the members. -/
theorem initializeNode_short_owner (t : TideStats) (hok : t._node.ok = true)
    (hne : cString t.framState.runID ≠ t._node.nodeID)
    (hlen : t._node.nodeID.length ≤ 15) (hnul : ∀ c ∈ t._node.nodeID, c ≠ NUL) :
    t.initializeNode.1 = true
      ∧ cString t.initializeNode.2.framState.runID = t._node.nodeID
      ∧ t.initializeNode.2._node = t._node
      ∧ t.initializeNode.2.framMllw = zeroStat
      ∧ t.initializeNode.2.framMhhw = zeroStat
      ∧ t.initializeNode.2.framMsl = zeroStat
      ∧ t.initializeNode.2.framPeriodDatum = { startTime := 0, mllw := 0, mhhw := 0 }
      ∧ t.initializeNode.2.framRecord = { high := 0, highTime := 0, low := 0, lowTime := 0 }
      ∧ t.initializeNode.2.framCalib
          = { numReadings := 0, totalDurationSec := 0, calibrated := false }
      ∧ t.initializeNode.2.initializeNode = (true, t.initializeNode.2.loadFram) := by
  have e := observe_initializeNode_mismatch t hok hne
  obtain ⟨f1, -, -, -, -, -, -, -, -, f10, -, f12, f13, f14, f15, f16, f17, -⟩ :=
    fields_of_observe e
  obtain ⟨z1, -, -, -, -, -, -, -, -, -, -, z12, z13, z14, z15, z16, z17, -⟩ :=
    clear_fields t.loadFram
  have hid : cString t.initializeNode.2.framState.runID = t._node.nodeID := by
    rw [f10]
    exact cString_toCharArray _ _ hlen hnul (strcpy_length _)
  have hnode : t.initializeNode.2._node = t._node := f1.trans z1
  refine ⟨?_, hid, hnode, f13.trans z13, f14.trans z14, f15.trans z15, f17.trans z17,
    f16.trans z16, f12.trans z12, ?_⟩
  · rw [initializeNode_mismatch t hok hne]
  · exact initializeNode_match _ (by rw [hnode]; exact hok) (by rw [hnode]; exact hid)

theorem observe_powerCycle (t mem : TideStats) (hok : t._node.ok = true)
    (hid : cString t.framState.runID = t._node.nodeID) :
    observe (powerCycle t mem)
      = { node := t._node
          state := t.framState
          calibDist := mem.calibDist
          calib := t.framCalib
          mllwStats := t.framMllw
          mhhwStats := t.framMhhw
          mslStats := t.framMsl
          periodDatum := t.framPeriodDatum
          record := t.framRecord
          framState := t.framState
          framCalibDist := t.framCalibDist
          framCalib := t.framCalib
          framMllw := t.framMllw
          framMhhw := t.framMhhw
          framMsl := t.framMsl
          framRecord := t.framRecord
          framPeriodDatum := t.framPeriodDatum
          periodEnd := false } := by
  unfold powerCycle
  rw [initializeNode_match (freshOn t mem) hok hid]
  rfl

/-- Every `pushDistanceUpwards` call ends with `saveFram`: afterwards the
persisted slots equal the members they were written from. -/
theorem pushDistanceUpwards_coherent (t : TideStats) (d : ℚ) (rt : Nat) :
    (t.pushDistanceUpwards d rt).framState = (t.pushDistanceUpwards d rt).state
      ∧ (t.pushDistanceUpwards d rt).framCalib = (t.pushDistanceUpwards d rt).calib
      ∧ (t.pushDistanceUpwards d rt).framMllw = (t.pushDistanceUpwards d rt).mllwStats
      ∧ (t.pushDistanceUpwards d rt).framMhhw = (t.pushDistanceUpwards d rt).mhhwStats
      ∧ (t.pushDistanceUpwards d rt).framMsl = (t.pushDistanceUpwards d rt).mslStats
      ∧ (t.pushDistanceUpwards d rt).framPeriodDatum = (t.pushDistanceUpwards d rt).periodDatum
      ∧ (t.pushDistanceUpwards d rt).framRecord = (t.pushDistanceUpwards d rt).record := by
  rw [pushDistanceUpwards_rule]
  exact ⟨rfl, rfl, rfl, rfl, rfl, rfl, rfl⟩

/-- An abrupt restart while `periodEnd` is false is not visible in the
persisted records: on a ready node whose persisted owner matches, in a state
whose slots equal its members (as after any reading) and whose last reading
did not close a period, the next reading leaves the same persisted records
with and without the restart. -/
theorem powerCycle_persisted_same (t mem : TideStats) (d : ℚ) (rt : Nat)
    (hok : t._node.ok = true) (hid : cString t.framState.runID = t._node.nodeID)
    (hstate : t.framState = t.state) (hcal : t.framCalib = t.calib)
    (hml : t.framMllw = t.mllwStats) (hmh : t.framMhhw = t.mhhwStats)
    (hpd : t.framPeriodDatum = t.periodDatum) (hrec : t.framRecord = t.record)
    (hpe : t.periodEnd = false) :
    ((powerCycle t mem).pushDistanceUpwards d rt).framPeriodDatum
        = (t.pushDistanceUpwards d rt).framPeriodDatum
      ∧ ((powerCycle t mem).pushDistanceUpwards d rt).framMllw
        = (t.pushDistanceUpwards d rt).framMllw
      ∧ ((powerCycle t mem).pushDistanceUpwards d rt).framMhhw
        = (t.pushDistanceUpwards d rt).framMhhw
      ∧ ((powerCycle t mem).pushDistanceUpwards d rt).framMsl
        = (t.pushDistanceUpwards d rt).framMsl
      ∧ ((powerCycle t mem).pushDistanceUpwards d rt).framState
        = (t.pushDistanceUpwards d rt).framState
      ∧ ((powerCycle t mem).pushDistanceUpwards d rt).framCalib
        = (t.pushDistanceUpwards d rt).framCalib
      ∧ ((powerCycle t mem).pushDistanceUpwards d rt).framRecord
        = (t.pushDistanceUpwards d rt).framRecord := by
  obtain ⟨-, u2, -, u4, u5, u6, -, u8, u9, -, -, -, u13, u14, u15, -, -, u18⟩ :=
    fields_of_observe (observe_powerCycle t mem hok hid)
  have hrule : segmentRule (powerCycle t mem) rt = segmentRule t rt := by
    unfold segmentRule
    rw [u8, u18, u2, hpd, hstate, hpe]
  cases h : segmentRule t rt with
  | restart =>
    obtain ⟨-, -, -, -, -, -, -, -, -, a10, -, a12, a13, a14, a15, a16, a17, -⟩ :=
      restart_fields t d rt h
    obtain ⟨-, -, -, -, -, -, -, -, -, b10, -, b12, b13, b14, b15, b16, b17, -⟩ :=
      restart_fields (powerCycle t mem) d rt (hrule.trans h)
    rw [a10, a12, a13, a14, a15, a16, a17, b10, b12, b13, b14, b15, b16, b17,
      u2, u4, u5, u6, u9, u15, hstate, hcal, hml, hmh, hrec]
    exact ⟨rfl, rfl, rfl, rfl, rfl, rfl, rfl⟩
  | continuePeriod =>
    obtain ⟨-, -, -, -, -, -, -, -, -, a10, -, a12, a13, a14, a15, a16, a17, -⟩ :=
      continue_fields t d rt h
    obtain ⟨-, -, -, -, -, -, -, -, -, b10, -, b12, b13, b14, b15, b16, b17, -⟩ :=
      continue_fields (powerCycle t mem) d rt (hrule.trans h)
    rw [a10, a12, a13, a14, a15, a16, a17, b10, b12, b13, b14, b15, b16, b17,
      u2, u4, u5, u6, u8, u9, u15, hstate, hcal, hml, hmh, hrec, hpd]
    exact ⟨rfl, rfl, rfl, rfl, rfl, rfl, rfl⟩
  | closePeriod =>
    obtain ⟨-, -, -, -, -, -, -, -, -, a10, -, a12, a13, a14, a15, a16, a17, -⟩ :=
      close_fields t d rt h
    obtain ⟨-, -, -, -, -, -, -, -, -, b10, -, b12, b13, b14, b15, b16, b17, -⟩ :=
      close_fields (powerCycle t mem) d rt (hrule.trans h)
    rw [a10, a12, a13, a14, a15, a16, a17, b10, b12, b13, b14, b15, b16, b17,
      u2, u4, u8, u9, u13, u14, u15, hstate, hcal, hrec, hpd]
    exact ⟨rfl, rfl, rfl, rfl, rfl, rfl, rfl⟩

/-! ## C11: the two ingestion variants -/

/-- C11: `pushDistanceUpwards(distUp)` run while the node clock returns `t`
produces exactly the state (members and persisted slots) that
`pushDistanceUpwards(distUp, t)` produces. -/
theorem C11_variants_agree (s : TideStats) (distUp : ℚ) (t : Nat) :
    s.pushDistanceUpwardsNow distUp t = s.pushDistanceUpwards distUp t := by
  unfold TideStats.pushDistanceUpwardsNow TideStats.pushDistanceUpwards
  rfl

/-! ## C12: `initialize` on a node that is not ready -/

/-- C12: `initialize()` returns true exactly when the node reports `ok()`;
when it returns false the object (every member and every persisted slot) is
unchanged. -/
theorem C12_initialize_result (t : TideStats) :
    (t.initializeNode.1 = true ↔ t._node.ok = true)
      ∧ (t.initializeNode.1 = false → t.initializeNode.2 = t) := by
  by_cases hok : t._node.ok = true
  · have h1 : t.initializeNode.1 = true := by
      by_cases hid : cString t.framState.runID = t._node.nodeID
      · rw [initializeNode_match t hok hid]
      · rw [initializeNode_mismatch t hok hid]
    refine ⟨⟨fun _ => hok, fun _ => h1⟩, fun h => ?_⟩
    rw [h1] at h
    exact absurd h (by decide)
  · have h2 : t.initializeNode = (false, t) := by
      unfold TideStats.initializeNode
      rw [if_neg hok]
    rw [h2]
    exact ⟨⟨fun h => Bool.noConfusion h, fun h => absurd h hok⟩, fun _ => rfl⟩

/-! ## C14: the `RunningStat` invariant -/

theorem toInt32_ne_zero {u : Nat} (h0 : 0 < u) (h : u < UINT32_SIZE) : toInt32 u ≠ 0 := by
  unfold toInt32
  unfold UINT32_SIZE at h ⊢
  have h1 : u % 4294967296 = u := Nat.mod_eq_of_lt h
  rw [h1]
  split <;> omega

theorem welford_increment_nonneg (x m : ℚ) (k : Int) (h0 : k ≠ 0) (h1 : k ≠ 1) :
    0 ≤ (x - m) * (x - (m + (x - m) / (k : ℚ))) := by
  have hq : (k : ℚ) ≠ 0 := by exact_mod_cast h0
  have e : (x - m) * (x - (m + (x - m) / (k : ℚ)))
      = (x - m) ^ 2 * (((k : ℚ) - 1) / (k : ℚ)) := by
    field_simp
    ring
  rw [e]
  apply mul_nonneg (sq_nonneg _)
  rcases lt_or_gt_of_ne h0 with hneg | hpos
  · have a : ((k : ℚ) - 1) ≤ 0 := by
      have : (k : ℚ) < 0 := by exact_mod_cast hneg
      linarith
    have b : (k : ℚ) ≤ 0 := by
      have : (k : ℚ) < 0 := by exact_mod_cast hneg
      linarith
    exact div_nonneg_of_nonpos a b
  · have hk2 : (2 : Int) ≤ k := by omega
    have a : 0 ≤ ((k : ℚ) - 1) := by
      have : (2 : ℚ) ≤ (k : ℚ) := by exact_mod_cast hk2
      linarith
    have b : 0 ≤ (k : ℚ) := by
      have : (2 : ℚ) ≤ (k : ℚ) := by exact_mod_cast hk2
      linarith
    exact div_nonneg a b

theorem storedAfterPush_inv (x : ℚ) (st : stat_t) (hinv : RunningStatInv st)
    (hnum : st.num < 4294967295) : RunningStatInv (storedAfterPush x st) := by
  obtain ⟨hs, hz⟩ := hinv
  have hmod : (st.num + 1) % UINT32_SIZE = st.num + 1 := by
    unfold UINT32_SIZE; omega
  have hne0 : (storedAfterPush x st).num ≠ 0 := by
    rw [storedAfterPush_num, hmod]; omega
  refine ⟨?_, fun h => absurd h hne0⟩
  unfold storedAfterPush
  rw [hmod]
  by_cases h1 : toInt32 (st.num + 1) = 1
  · rw [if_pos h1]
    exact hs
  · rw [if_neg h1]
    have h0 : toInt32 (st.num + 1) ≠ 0 :=
      toInt32_ne_zero (by omega) (by unfold UINT32_SIZE; omega)
    have := welford_increment_nonneg x st.mean (toInt32 (st.num + 1)) h0 h1
    show 0 ≤ st.s + _
    linarith

/-- C14: the `RunningStat` invariant (`s >= 0`, and count 0 implies mean 0
and `s = 0`) holds for every accumulator after `clear()`, in memory and in
the persisted slots, and every `pushStats` call on a slot whose record
satisfies it and has a count below 2^32 - 1 stores and returns a record that
satisfies it, for every sample `x`. -/
theorem C14_invariant_preserved (t : TideStats) (x : ℚ) (a : StatSlot)
    (hinv : RunningStatInv (t.readStat a)) (hnum : (t.readStat a).num < 4294967295) :
    RunningStatInv ((t.pushStats x a).2.readStat a)
      ∧ RunningStatInv (t.pushStats x a).1
      ∧ (∀ u : TideStats, ∀ b : StatSlot, RunningStatInv (u.clear.readStat b))
      ∧ (∀ u : TideStats, RunningStatInv u.clear.mllwStats ∧ RunningStatInv u.clear.mhhwStats
          ∧ RunningStatInv u.clear.mslStats ∧ RunningStatInv u.clear.calibDist) := by
  have hz : RunningStatInv zeroStat := ⟨le_refl _, fun _ => ⟨rfl, rfl⟩⟩
  refine ⟨?_, ?_, ?_, ?_⟩
  · rw [readStat_pushStats]
    exact storedAfterPush_inv x _ hinv hnum
  · rw [pushStats_fst]
    exact storedAfterPush_inv x _ hinv hnum
  · intro u b
    obtain ⟨-, -, -, -, -, -, -, -, -, -, -, -, z13, z14, z15, -, -, -⟩ := clear_fields u
    cases b
    · show RunningStatInv u.clear.framMllw
      rw [z13]; exact hz
    · show RunningStatInv u.clear.framMhhw
      rw [z14]; exact hz
    · show RunningStatInv u.clear.framMsl
      rw [z15]; exact hz
  · intro u
    obtain ⟨-, -, z3, -, z5, z6, z7, -, -, -, -, -, -, -, -, -, -, -⟩ := clear_fields u
    rw [z3, z5, z6, z7]
    exact ⟨hz, hz, hz, hz⟩

/-- C14 witness: the push of 3 into the MSL slot of `fullTide`
(count 2^31 - 1, mean 0, `s = 0`), where the count reaches `int n` as a
negative number. -/
theorem C14_invariant_preserved_witness :
    RunningStatInv (fullTide.readStat .framMsl)
      ∧ (fullTide.readStat .framMsl).num < 4294967295
      ∧ RunningStatInv ((fullTide.pushStats 3 .framMsl).2.readStat .framMsl) :=
  have h1 : RunningStatInv (fullTide.readStat .framMsl) :=
    ⟨le_refl _, fun h => absurd h (by decide)⟩
  have h2 : (fullTide.readStat .framMsl).num < 4294967295 := by decide
  ⟨h1, h2, (C14_invariant_preserved fullTide 3 .framMsl h1 h2).1⟩

/-! ## C15: what one reading does to the three accumulators -/

/-- C15, as stated, fails on the code: in `fullCountTide` the members equal
their slots and the MSL count is 2^32 - 1; one reading wraps the `uint32_t`
count to 0 instead of increasing it by 1. -/
theorem C15_counterexample :
    fullCountTide.mslStats = fullCountTide.framMsl
      ∧ fullCountTide.mllwStats = fullCountTide.framMllw
      ∧ fullCountTide.mhhwStats = fullCountTide.framMhhw
      ∧ fullCountTide.framMsl.num = 4294967295
      ∧ (fullCountTide.pushDistanceUpwards 1 1).framMsl.num = 0
      ∧ (fullCountTide.pushDistanceUpwards 1 1).mslStats.num = 0 := by
  refine ⟨rfl, rfl, rfl, rfl, ?_, ?_⟩ <;> rfl

theorem storedAfterPush_num_succ (x : ℚ) (st : stat_t) (h : st.num < 4294967295) :
    (storedAfterPush x st).num = st.num + 1 := by
  rw [storedAfterPush_num]
  unfold UINT32_SIZE
  omega

/-- C15 (amended): in a state whose MLLW and MHHW members equal their
persisted slots, one `pushDistanceUpwards` call pushes `distUp` into the MSL
accumulator whichever rule fires (its count goes up by exactly 1 when it was
below 2^32 - 1), sets `state.lastReadingTime = readingTime`, pushes the
period's low into MLLW and its high into MHHW when the close rule fires (each
count goes up by exactly 1 when it was below 2^32 - 1), and leaves the MLLW
and MHHW records as they were otherwise. -/
theorem C15_one_reading (t : TideStats) (distUp : ℚ) (readingTime : Nat)
    (hml : t.mllwStats = t.framMllw) (hmh : t.mhhwStats = t.framMhhw) :
    (t.pushDistanceUpwards distUp readingTime).framMsl = storedAfterPush distUp t.framMsl
      ∧ (t.pushDistanceUpwards distUp readingTime).mslStats = storedAfterPush distUp t.framMsl
      ∧ (t.framMsl.num < 4294967295 →
          (t.pushDistanceUpwards distUp readingTime).framMsl.num = t.framMsl.num + 1)
      ∧ (t.pushDistanceUpwards distUp readingTime).state.lastReadingTime = readingTime
      ∧ (t.pushDistanceUpwards distUp readingTime).framState.lastReadingTime = readingTime
      ∧ (segmentRule t readingTime = .closePeriod →
          (t.pushDistanceUpwards distUp readingTime).framMllw
              = storedAfterPush t.periodDatum.mllw t.framMllw
            ∧ (t.pushDistanceUpwards distUp readingTime).framMhhw
              = storedAfterPush t.periodDatum.mhhw t.framMhhw
            ∧ (t.framMllw.num < 4294967295 →
                (t.pushDistanceUpwards distUp readingTime).framMllw.num = t.framMllw.num + 1)
            ∧ (t.framMhhw.num < 4294967295 →
                (t.pushDistanceUpwards distUp readingTime).framMhhw.num = t.framMhhw.num + 1))
      ∧ (segmentRule t readingTime ≠ .closePeriod →
          (t.pushDistanceUpwards distUp readingTime).framMllw = t.framMllw
            ∧ (t.pushDistanceUpwards distUp readingTime).framMhhw = t.framMhhw
            ∧ (t.pushDistanceUpwards distUp readingTime).mllwStats = t.mllwStats
            ∧ (t.pushDistanceUpwards distUp readingTime).mhhwStats = t.mhhwStats) := by
  have hcoh := (pushDistanceUpwards_coherent t distUp readingTime).1
  have hlast := pushDistanceUpwards_last t distUp readingTime
  cases h : segmentRule t readingTime with
  | restart =>
    obtain ⟨-, -, -, -, a5, a6, a7, -, -, -, -, -, a13, a14, a15, -, -, -⟩ :=
      restart_fields t distUp readingTime h
    refine ⟨a15, a7, fun hn => ?_, hlast, ?_, fun hc => absurd hc (by decide),
      fun _ => ⟨a13.trans hml, a14.trans hmh, a5, a6⟩⟩
    · rw [a15]; exact storedAfterPush_num_succ _ _ hn
    · rw [hcoh]; exact hlast
  | continuePeriod =>
    obtain ⟨-, -, -, -, a5, a6, a7, -, -, -, -, -, a13, a14, a15, -, -, -⟩ :=
      continue_fields t distUp readingTime h
    refine ⟨a15, a7, fun hn => ?_, hlast, ?_, fun hc => absurd hc (by decide),
      fun _ => ⟨a13.trans hml, a14.trans hmh, a5, a6⟩⟩
    · rw [a15]; exact storedAfterPush_num_succ _ _ hn
    · rw [hcoh]; exact hlast
  | closePeriod =>
    obtain ⟨-, -, -, -, -, -, a7, -, -, -, -, -, a13, a14, a15, -, -, -⟩ :=
      close_fields t distUp readingTime h
    refine ⟨a15, a7, fun hn => ?_, hlast, ?_, fun _ => ⟨a13, a14, fun hn => ?_, fun hn => ?_⟩,
      fun hc => absurd rfl hc⟩
    · rw [a15]; exact storedAfterPush_num_succ _ _ hn
    · rw [hcoh]; exact hlast
    · rw [a13]; exact storedAfterPush_num_succ _ _ hn
    · rw [a14]; exact storedAfterPush_num_succ _ _ hn

/-- C15 witness: the reading 3 at 90001 s in `openTide` fires the close
rule: the MSL count goes from 25 to 26 and the MLLW and MHHW counts from 0
to 1. -/
theorem C15_one_reading_witness :
    openTide.mllwStats = openTide.framMllw
      ∧ openTide.mhhwStats = openTide.framMhhw
      ∧ segmentRule openTide 90001 = .closePeriod
      ∧ openTide.framMsl.num = 25
      ∧ (openTide.pushDistanceUpwards 3 90001).framMsl.num = 25 + 1
      ∧ openTide.framMllw.num = 0
      ∧ (openTide.pushDistanceUpwards 3 90001).framMllw.num = 0 + 1
      ∧ (openTide.pushDistanceUpwards 3 90001).state.lastReadingTime = 90001 :=
  have h1 : openTide.mllwStats = openTide.framMllw := by rfl
  have h2 : openTide.mhhwStats = openTide.framMhhw := by rfl
  have h3 : segmentRule openTide 90001 = .closePeriod := by rfl
  have h4 : openTide.framMsl.num = 25 := by rfl
  have h5 : openTide.framMllw.num = 0 := by rfl
  ⟨h1, h2, h3, h4,
    h4 ▸ (C15_one_reading openTide 3 90001 h1 h2).2.2.1 (by rw [h4]; decide),
    h5,
    h5 ▸ ((C15_one_reading openTide 3 90001 h1 h2).2.2.2.2.2.1 h3).2.2.1 (by rw [h5]; decide),
    (C15_one_reading openTide 3 90001 h1 h2).2.2.2.1⟩

/-! ## C16: the order of the samples -/

theorem foldl_one_zeros (k : Nat) (hlt : k + 1 < 2147483648) :
    (1 :: List.replicate k (0 : ℚ)).foldl (fun st x => storedAfterPush x st) zeroStat
      = { num := k + 1, mean := 1 / ((k : ℚ) + 1), s := 1 - 1 / ((k : ℚ) + 1) } := by
  obtain ⟨h1, h2, h3⟩ := welford_fold (1 :: List.replicate k (0 : ℚ)) (List.cons_ne_nil _ _)
    (by simpa only [List.length_cons, List.length_replicate] using hlt)
  simp only [List.length_cons, List.length_replicate, List.sum_cons, List.sum_replicate,
    List.map_cons, List.map_replicate, smul_zero, add_zero, one_pow, ne_eq,
    OfNat.ofNat_ne_zero, not_false_eq_true, zero_pow, Nat.cast_add, Nat.cast_one] at h1 h2 h3
  generalize (1 :: List.replicate k (0 : ℚ)).foldl (fun st x => storedAfterPush x st) zeroStat
    = st at h1 h2 h3
  cases st
  simp_all

theorem foldl_longSamplesRev :
    longSamplesRev.foldl (fun st x => storedAfterPush x st) zeroStat
      = { num := 2147483648
          mean := 1 / 2147483647 + 1 / 2147483647 / 2147483648
          s := 1 - 1 / 2147483647 + 1 / 2147483647 * (1 / 2147483647
                + 1 / 2147483647 / 2147483648) } := by
  unfold longSamplesRev
  rw [List.foldl_append, foldl_one_zeros 2147483646 (by omega)]
  simp only [List.foldl_cons, List.foldl_nil]
  unfold storedAfterPush
  norm_num [toInt32, UINT32_SIZE]

theorem replicate_snoc_perm (k m : Nat) (h : m = k + 1) :
    (List.replicate m (0 : ℚ) ++ [1]).Perm ((1 :: List.replicate k 0) ++ [0]) := by
  subst h
  have e1 : (List.replicate (k + 1) (0 : ℚ) ++ [1]).Perm (1 :: List.replicate (k + 1) 0) :=
    List.perm_append_singleton _ _
  have e2 : (List.replicate k (0 : ℚ) ++ [0]).Perm (List.replicate (k + 1) 0) := by
    rw [List.replicate_succ]
    exact List.perm_append_singleton _ _
  exact e1.trans ((List.Perm.cons 1 e2.symm).trans (by rw [List.cons_append]))

theorem longSamples_perm : longSamples.Perm longSamplesRev := by
  unfold longSamples longSamplesRev
  exact replicate_snoc_perm 2147483646 2147483647 (by norm_num)

/-- C16, as stated, fails on the code: `longSamplesRev` is a permutation of
`longSamples` (2^31 samples), yet pushed into the zeroed MSL slot of the
cleared state the first leaves mean -1/2^31 and the second a positive mean:
the last push of each divides by `int n = -2^31`. -/
theorem C16_counterexample :
    longSamples.Perm longSamplesRev
      ∧ clearedTide.readStat .framMsl = zeroStat
      ∧ ((pushMany clearedTide longSamples .framMsl).readStat .framMsl).mean
          = -(1 / 2147483648)
      ∧ ((pushMany clearedTide longSamplesRev .framMsl).readStat .framMsl).mean
          = 1 / 2147483647 + 1 / 2147483647 / 2147483648
      ∧ ((pushMany clearedTide longSamples .framMsl).readStat .framMsl).mean
          ≠ ((pushMany clearedTide longSamplesRev .framMsl).readStat .framMsl).mean := by
  have h0 : clearedTide.readStat .framMsl = zeroStat := rfl
  have e1 : ((pushMany clearedTide longSamples .framMsl).readStat .framMsl).mean
      = -(1 / 2147483648) := by
    rw [readStat_pushMany, h0, foldl_longSamples]
  have e2 : ((pushMany clearedTide longSamplesRev .framMsl).readStat .framMsl).mean
      = 1 / 2147483647 + 1 / 2147483647 / 2147483648 := by
    rw [readStat_pushMany, h0, foldl_longSamplesRev]
  refine ⟨longSamples_perm, h0, e1, e2, ?_⟩
  rw [e1, e2]
  norm_num

/-- C16 (amended): for every list of samples `xs` with fewer than 2^31
elements and every permutation `ys` of it, pushing `xs` and pushing `ys`
through `pushStats` into a zeroed slot store the same record: the same count,
the same mean and the same `s`. -/
theorem C16_permutation (t u : TideStats) (a b : StatSlot) (xs ys : List ℚ)
    (hperm : xs.Perm ys) (hlen : xs.length < 2147483648)
    (ht : t.readStat a = zeroStat) (hu : u.readStat b = zeroStat) :
    (pushMany t xs a).readStat a = (pushMany u ys b).readStat b
      ∧ ((pushMany t xs a).readStat a).num = ((pushMany u ys b).readStat b).num
      ∧ ((pushMany t xs a).readStat a).mean = ((pushMany u ys b).readStat b).mean
      ∧ ((pushMany t xs a).readStat a).s = ((pushMany u ys b).readStat b).s := by
  have e : (pushMany t xs a).readStat a = (pushMany u ys b).readStat b := by
    rw [readStat_pushMany, readStat_pushMany, ht, hu]
    by_cases hx : xs = []
    · subst hx
      rw [List.nil_perm.mp hperm]
    · have hy : ys ≠ [] := fun h => hx (by subst h; exact List.perm_nil.mp hperm)
      have hl : ys.length = xs.length := hperm.length_eq.symm
      obtain ⟨x1, x2, x3⟩ := welford_fold xs hx hlen
      obtain ⟨y1, y2, y3⟩ := welford_fold ys hy (by rw [hl]; exact hlen)
      rw [hl] at y1 y2 y3
      rw [← hperm.sum_eq] at y2 y3
      rw [← (hperm.map (fun x => x ^ 2)).sum_eq] at y3
      generalize xs.foldl (fun st x => storedAfterPush x st) zeroStat = p at x1 x2 x3
      generalize ys.foldl (fun st x => storedAfterPush x st) zeroStat = q at y1 y2 y3
      cases p
      cases q
      simp_all
  exact ⟨e, by rw [e], by rw [e], by rw [e]⟩

/-- C16 witness: `[1, 2, 3]` and `[3, 1, 2]` pushed into the zeroed MSL slot
of the cleared state. -/
theorem C16_permutation_witness :
    ([1, 2, 3] : List ℚ).Perm [3, 1, 2]
      ∧ ([1, 2, 3] : List ℚ).length < 2147483648
      ∧ clearedTide.readStat .framMsl = zeroStat
      ∧ (pushMany clearedTide [1, 2, 3] .framMsl).readStat .framMsl
          = (pushMany clearedTide [3, 1, 2] .framMsl).readStat .framMsl :=
  have hp : ([1, 2, 3] : List ℚ).Perm [3, 1, 2] :=
    (List.perm_append_singleton (3 : ℚ) [1, 2]).trans (List.Perm.refl _)
  have hl : ([1, 2, 3] : List ℚ).length < 2147483648 := by decide
  ⟨hp, hl, rfl,
    (C16_permutation clearedTide clearedTide .framMsl .framMsl [1, 2, 3] [3, 1, 2] hp hl
      rfl rfl).1⟩

/-! ## C17: the reading that closes a period -/

/-- C17: when the close rule fires on `(distUp, readingTime)` (`startTime`
not 0, `periodEnd` false, gap at most `DATUM_MAX_GAP_S`, at least
`DATUM_PERIOD_S` since `startTime`), `periodDatum.mllw` and `.mhhw` are left
as they were, `startTime` becomes `readingTime`, `periodEnd` becomes true and
the values pushed into MLLW and MHHW are the old `mllw` and `mhhw`; the next
reading `(x2, t2)`, whatever it is, takes the restart rule and sets
`mllw = mhhw = x2`, `startTime = t2`. So `distUp` enters the extrema of
neither period. -/
theorem C17_close_then_restart (t : TideStats) (distUp : ℚ) (readingTime : Nat)
    (hstart : t.periodDatum.startTime ≠ 0) (hend : t.periodEnd = false)
    (hgap : sub32 readingTime t.state.lastReadingTime ≤ DATUM_MAX_GAP_S)
    (hper : DATUM_PERIOD_S ≤ sub32 readingTime t.periodDatum.startTime) :
    segmentRule t readingTime = .closePeriod
      ∧ (t.pushDistanceUpwards distUp readingTime).periodDatum.mllw = t.periodDatum.mllw
      ∧ (t.pushDistanceUpwards distUp readingTime).periodDatum.mhhw = t.periodDatum.mhhw
      ∧ (t.pushDistanceUpwards distUp readingTime).periodDatum.startTime = readingTime
      ∧ (t.pushDistanceUpwards distUp readingTime).periodEnd = true
      ∧ (t.pushDistanceUpwards distUp readingTime).framMllw
          = storedAfterPush t.periodDatum.mllw t.framMllw
      ∧ (t.pushDistanceUpwards distUp readingTime).framMhhw
          = storedAfterPush t.periodDatum.mhhw t.framMhhw
      ∧ ∀ (x2 : ℚ) (t2 : Nat),
          segmentRule (t.pushDistanceUpwards distUp readingTime) t2 = .restart
            ∧ ((t.pushDistanceUpwards distUp readingTime).pushDistanceUpwards x2 t2).periodDatum
                = { startTime := t2, mllw := x2, mhhw := x2 }
            ∧ ((t.pushDistanceUpwards distUp readingTime).pushDistanceUpwards x2 t2).framMllw
                = storedAfterPush t.periodDatum.mllw t.framMllw
            ∧ ((t.pushDistanceUpwards distUp readingTime).pushDistanceUpwards x2 t2).framMhhw
                = storedAfterPush t.periodDatum.mhhw t.framMhhw := by
  have hr : segmentRule t readingTime = .closePeriod := by
    rw [segmentRule_close_iff]
    refine ⟨?_, by omega⟩
    rintro (h | h | h)
    · exact hstart h
    · rw [hend] at h
      exact Bool.noConfusion h
    · omega
  obtain ⟨-, -, -, -, a5, a6, -, a8, -, -, -, -, a13, a14, -, -, -, a18⟩ :=
    close_fields t distUp readingTime hr
  refine ⟨hr, by rw [a8], by rw [a8], by rw [a8], a18, a13, a14, fun x2 t2 => ?_⟩
  have hr2 : segmentRule (t.pushDistanceUpwards distUp readingTime) t2 = .restart :=
    (segmentRule_restart_iff _ _).mpr (Or.inr (Or.inl a18))
  obtain ⟨-, -, -, -, -, -, -, b8, -, -, -, -, b13, b14, -, -, -, -⟩ :=
    restart_fields (t.pushDistanceUpwards distUp readingTime) x2 t2 hr2
  exact ⟨hr2, b8, b13.trans a5, b14.trans a6⟩

/-- C17 witness: in `openTide` the reading 9 at 90001 s closes the period
with low 1 and high 7; the next reading, 2 at 90002 s, restarts with
`mllw = mhhw = 2`. -/
theorem C17_close_then_restart_witness :
    openTide.periodDatum.startTime ≠ 0
      ∧ openTide.periodEnd = false
      ∧ sub32 90001 openTide.state.lastReadingTime ≤ DATUM_MAX_GAP_S
      ∧ DATUM_PERIOD_S ≤ sub32 90001 openTide.periodDatum.startTime
      ∧ openTide.periodDatum.mllw = 1
      ∧ openTide.periodDatum.mhhw = 7
      ∧ (openTide.pushDistanceUpwards 9 90001).periodDatum.mhhw = openTide.periodDatum.mhhw
      ∧ ((openTide.pushDistanceUpwards 9 90001).pushDistanceUpwards 2 90002).periodDatum
          = { startTime := 90002, mllw := 2, mhhw := 2 } :=
  have h1 : openTide.periodDatum.startTime ≠ 0 := by decide
  have h2 : openTide.periodEnd = false := by rfl
  have h3 : sub32 90001 openTide.state.lastReadingTime ≤ DATUM_MAX_GAP_S := by decide
  have h4 : DATUM_PERIOD_S ≤ sub32 90001 openTide.periodDatum.startTime := by decide
  ⟨h1, h2, h3, h4, by rfl, by rfl,
    (C17_close_then_restart openTide 9 90001 h1 h2 h3 h4).2.2.1,
    ((C17_close_then_restart openTide 9 90001 h1 h2 h3 h4).2.2.2.2.2.2.2 2 90002).2.1⟩

/-! ## C19: what a reading leaves alone -/

theorem pushDistanceUpwards_frame (t : TideStats) (d : ℚ) (rt : Nat) :
    (t.pushDistanceUpwards d rt).calib = t.calib
      ∧ (t.pushDistanceUpwards d rt).record = t.record
      ∧ (t.pushDistanceUpwards d rt).state = { t.state with lastReadingTime := rt }
      ∧ (t.pushDistanceUpwards d rt)._node = t._node
      ∧ (t.pushDistanceUpwards d rt).calibDist = t.calibDist
      ∧ (t.pushDistanceUpwards d rt).framCalibDist = t.framCalibDist := by
  cases h : segmentRule t rt with
  | restart =>
    obtain ⟨a1, a2, a3, a4, -, -, -, -, a9, -, a11, -, -, -, -, -, -, -⟩ :=
      restart_fields t d rt h
    exact ⟨a4, a9, a2, a1, a3, a11⟩
  | continuePeriod =>
    obtain ⟨a1, a2, a3, a4, -, -, -, -, a9, -, a11, -, -, -, -, -, -, -⟩ :=
      continue_fields t d rt h
    exact ⟨a4, a9, a2, a1, a3, a11⟩
  | closePeriod =>
    obtain ⟨a1, a2, a3, a4, -, -, -, -, a9, -, a11, -, -, -, -, -, -, -⟩ :=
      close_fields t d rt h
    exact ⟨a4, a9, a2, a1, a3, a11⟩

theorem pushReadings_calib_record (rs : List (ℚ × Nat)) (t : TideStats) :
    (pushReadings t rs).calib = t.calib ∧ (pushReadings t rs).record = t.record
      ∧ (rs ≠ [] → (pushReadings t rs).framCalib = t.calib
          ∧ (pushReadings t rs).framRecord = t.record) := by
  induction rs generalizing t with
  | nil => exact ⟨rfl, rfl, fun h => absurd rfl h⟩
  | cons r rs ih =>
    rw [pushReadings_cons]
    obtain ⟨i1, i2, i3⟩ := ih (t.pushDistanceUpwards r.1 r.2)
    obtain ⟨f1, f2, -, -, -, -⟩ := pushDistanceUpwards_frame t r.1 r.2
    obtain ⟨-, c2, -, -, -, -, c7⟩ := pushDistanceUpwards_coherent t r.1 r.2
    refine ⟨i1.trans f1, i2.trans f2, fun _ => ?_⟩
    by_cases hrs : rs = []
    · subst hrs
      rw [pushReadings_nil]
      exact ⟨c2.trans f1, c7.trans f2⟩
    · exact ⟨(i3 hrs).1.trans f1, (i3 hrs).2.trans f2⟩

/-- C19: neither `pushDistanceUpwards` variant changes the members `calib`
(CalibrationState), `record` (ExtremeRecord) or, in `state`, `runID`,
`mode`, `type`, `lat`, `lon`, `A` and `k` (only `lastReadingTime` is
assigned); the persisted slots of these entities are rewritten with those
unchanged members. Consequently, after `clear()` and any sequence of
readings, `isCalibrated()` is false and the extreme record is all zero, in
memory and in the slots. -/
theorem C19_frame (t : TideStats) (distUp : ℚ) (readingTime : Nat) :
    (t.pushDistanceUpwards distUp readingTime).calib = t.calib
      ∧ (t.pushDistanceUpwards distUp readingTime).record = t.record
      ∧ (t.pushDistanceUpwards distUp readingTime).state.runID = t.state.runID
      ∧ (t.pushDistanceUpwards distUp readingTime).state.mode = t.state.mode
      ∧ (t.pushDistanceUpwards distUp readingTime).state.type = t.state.type
      ∧ (t.pushDistanceUpwards distUp readingTime).state.lat = t.state.lat
      ∧ (t.pushDistanceUpwards distUp readingTime).state.lon = t.state.lon
      ∧ (t.pushDistanceUpwards distUp readingTime).state.A = t.state.A
      ∧ (t.pushDistanceUpwards distUp readingTime).state.k = t.state.k
      ∧ (t.pushDistanceUpwards distUp readingTime).framCalib = t.calib
      ∧ (t.pushDistanceUpwards distUp readingTime).framRecord = t.record
      ∧ (t.pushDistanceUpwards distUp readingTime).framState
          = { t.state with lastReadingTime := readingTime }
      ∧ t.pushDistanceUpwardsNow distUp readingTime
          = t.pushDistanceUpwards distUp readingTime
      ∧ (∀ rs : List (ℚ × Nat),
          (pushReadings t.clear rs).isCalibrated = false
            ∧ (pushReadings t.clear rs).record
                = { high := 0, highTime := 0, low := 0, lowTime := 0 }
            ∧ (pushReadings t.clear rs).framCalib.calibrated = false
            ∧ (pushReadings t.clear rs).framRecord
                = { high := 0, highTime := 0, low := 0, lowTime := 0 }) := by
  obtain ⟨f1, f2, f3, -, -, -⟩ := pushDistanceUpwards_frame t distUp readingTime
  obtain ⟨c1, c2, -, -, -, -, c7⟩ := pushDistanceUpwards_coherent t distUp readingTime
  refine ⟨f1, f2, by rw [f3], by rw [f3], by rw [f3], by rw [f3], by rw [f3], by rw [f3],
    by rw [f3], c2.trans f1, c7.trans f2, c1.trans f3, ?_, fun rs => ?_⟩
  · unfold TideStats.pushDistanceUpwardsNow TideStats.pushDistanceUpwards
    rfl
  · obtain ⟨-, -, -, z4, -, -, -, -, z9, -, -, z12, -, -, -, z16, -, -⟩ := clear_fields t
    obtain ⟨p1, p2, p3⟩ := pushReadings_calib_record rs t.clear
    have q1 : (pushReadings t.clear rs).isCalibrated = false := by
      unfold TideStats.isCalibrated
      rw [p1, z4]
    refine ⟨q1, p2.trans z9, ?_, ?_⟩
    · by_cases hrs : rs = []
      · subst hrs
        rw [pushReadings_nil, z12]
      · rw [(p3 hrs).1, z4]
    · by_cases hrs : rs = []
      · subst hrs
        rw [pushReadings_nil, z16]
      · rw [(p3 hrs).2, z9]

/-! ## C20: a reading earlier than the last one -/

/-- C20: timestamps are `uint32_t` values and the gap is their difference
modulo 2^32. A reading whose `readingTime` is `d` seconds before
`state.lastReadingTime`, with `0 < d < 2^32 - DATUM_MAX_GAP_S`, has gap
`2^32 - d`, which exceeds `DATUM_MAX_GAP_S`; it takes the restart rule
(`startTime = readingTime`, `mllw = mhhw = distUp`), never the continue or
the close rule. -/
theorem C20_earlier_reading_restarts (t : TideStats) (distUp : ℚ) (readingTime d : Nat)
    (hlast : t.state.lastReadingTime < UINT32_SIZE)
    (hd : readingTime + d = t.state.lastReadingTime) (hpos : 0 < d)
    (hbound : d < UINT32_SIZE - DATUM_MAX_GAP_S) :
    sub32 readingTime t.state.lastReadingTime = UINT32_SIZE - d
      ∧ DATUM_MAX_GAP_S < sub32 readingTime t.state.lastReadingTime
      ∧ segmentRule t readingTime = .restart
      ∧ segmentRule t readingTime ≠ .continuePeriod
      ∧ segmentRule t readingTime ≠ .closePeriod
      ∧ (t.pushDistanceUpwards distUp readingTime).periodDatum
          = { startTime := readingTime, mllw := distUp, mhhw := distUp }
      ∧ (t.pushDistanceUpwards distUp readingTime).periodEnd = false := by
  have e : sub32 readingTime t.state.lastReadingTime = UINT32_SIZE - d := by
    unfold sub32
    unfold UINT32_SIZE at hlast hbound ⊢
    omega
  have hg : DATUM_MAX_GAP_S < sub32 readingTime t.state.lastReadingTime := by
    rw [e]
    unfold UINT32_SIZE DATUM_MAX_GAP_S at hbound ⊢
    omega
  have hr : segmentRule t readingTime = .restart :=
    (segmentRule_restart_iff _ _).mpr (Or.inr (Or.inr hg))
  obtain ⟨-, -, -, -, -, -, -, a8, -, -, -, -, -, -, -, -, -, a18⟩ :=
    restart_fields t distUp readingTime hr
  refine ⟨e, hg, hr, ?_, ?_, a8, a18⟩
  · rw [hr]; decide
  · rw [hr]; decide

/-- C20 witness: in `openTide` (last reading at 86401 s, period started at
1 s) the reading 4 at 86400 s is one second early and restarts the period. -/
theorem C20_earlier_reading_restarts_witness :
    openTide.state.lastReadingTime < UINT32_SIZE
      ∧ 86400 + 1 = openTide.state.lastReadingTime
      ∧ (1 : Nat) < UINT32_SIZE - DATUM_MAX_GAP_S
      ∧ sub32 86400 openTide.state.lastReadingTime = UINT32_SIZE - 1
      ∧ (openTide.pushDistanceUpwards 4 86400).periodDatum
          = { startTime := 86400, mllw := 4, mhhw := 4 } :=
  have h1 : openTide.state.lastReadingTime < UINT32_SIZE := by decide
  have h2 : 86400 + 1 = openTide.state.lastReadingTime := by decide
  have h3 : (1 : Nat) < UINT32_SIZE - DATUM_MAX_GAP_S := by decide
  ⟨h1, h2, h3,
    (C20_earlier_reading_restarts openTide 4 86400 1 h1 h2 (by decide) h3).1,
    (C20_earlier_reading_restarts openTide 4 86400 1 h1 h2 (by decide) h3).2.2.2.2.2.1⟩

/-! ## C13: the running low and high bound the readings of the period -/

theorem period_bounds_run (rs : List (ℚ × Nat)) (s : TideStats)
    (hsorted : rs.Pairwise (fun a b => a.2 < b.2))
    (hopen : (pushReadings s rs).periodEnd = false) :
    ∀ r ∈ rs, (pushReadings s rs).periodDatum.startTime ≤ r.2 →
      (pushReadings s rs).periodDatum.mllw ≤ r.1
        ∧ r.1 ≤ (pushReadings s rs).periodDatum.mhhw := by
  induction rs using List.reverseRecOn with
  | nil =>
    intro r hr
    exact absurd hr (List.not_mem_nil r)
  | append_singleton rs r ih =>
    rw [List.pairwise_append] at hsorted
    obtain ⟨hs1, -, hs3⟩ := hsorted
    rw [pushReadings_append, pushReadings_cons, pushReadings_nil] at hopen ⊢
    cases h : segmentRule (pushReadings s rs) r.2 with
    | restart =>
      obtain ⟨-, -, -, -, -, -, -, a8, -, -, -, -, -, -, -, -, -, -⟩ :=
        restart_fields (pushReadings s rs) r.1 r.2 h
      rw [a8]
      intro r' hr' hle
      rcases List.mem_append.mp hr' with hm | hm
      · have := hs3 r' hm r (List.mem_singleton.mpr rfl)
        have hle' : r.2 ≤ r'.2 := hle
        omega
      · rw [List.mem_singleton.mp hm]
        exact ⟨le_refl _, le_refl _⟩
    | continuePeriod =>
      obtain ⟨-, -, -, -, -, -, -, a8, -, -, -, -, -, -, -, -, -, a18⟩ :=
        continue_fields (pushReadings s rs) r.1 r.2 h
      have hpe : (pushReadings s rs).periodEnd = false := by
        rw [a18] at hopen
        exact hopen
      rw [a8]
      simp only [ite_lt_eq_min, ite_gt_eq_max]
      intro r' hr' hle
      rcases List.mem_append.mp hr' with hm | hm
      · obtain ⟨b1, b2⟩ := ih hs1 hpe r' hm hle
        exact ⟨le_trans (min_le_left _ _) b1, le_trans b2 (le_max_left _ _)⟩
      · rw [List.mem_singleton.mp hm]
        exact ⟨min_le_right _ _, le_max_right _ _⟩
    | closePeriod =>
      obtain ⟨-, -, -, -, -, -, -, -, -, -, -, -, -, -, -, -, -, a18⟩ :=
        close_fields (pushReadings s rs) r.1 r.2 h
      rw [a18] at hopen
      exact Bool.noConfusion hopen

theorem outlierReadings_sorted : outlierReadings.Pairwise (fun a b => a.2 ≤ b.2) := by
  decide

theorem tiedReadings_sorted : tiedReadings.Pairwise (fun a b => a.2 ≤ b.2) := by
  decide

theorem outlier_mem : ((9 : ℚ), 90001) ∈ outlierReadings := by
  unfold outlierReadings
  exact List.mem_cons_of_mem _ (List.mem_append_right _ (List.mem_singleton.mpr rfl))

theorem outlier_run :
    (pushReadings clearedTide outlierReadings).periodDatum
      = { startTime := 90001, mllw := 1, mhhw := 7 } := by
  rfl

theorem tied_run :
    (pushReadings clearedTide tiedReadings).periodDatum
        = { startTime := 90001, mllw := 2, mhhw := 2 }
      ∧ (pushReadings clearedTide tiedReadings).periodEnd = false := by
  constructor <;> rfl

/-- C13, as stated, fails on the code. From the cleared state, the readings
`outlierReadings` have increasing timestamps and the last one, 9 at 90001 s,
closes the period: afterwards `startTime = 90001` and `mhhw = 7 < 9`. With
one more reading at the same timestamp (`tiedReadings`, timestamps not
decreasing) the period restarts with `mllw = mhhw = 2`, `startTime = 90001`
and `periodEnd` false, and the closing reading 9 is still outside. -/
theorem C13_counterexample :
    outlierReadings.Pairwise (fun a b => a.2 ≤ b.2)
      ∧ ((9 : ℚ), 90001) ∈ outlierReadings
      ∧ (pushReadings clearedTide outlierReadings).periodDatum
          = { startTime := 90001, mllw := 1, mhhw := 7 }
      ∧ tiedReadings.Pairwise (fun a b => a.2 ≤ b.2)
      ∧ ((9 : ℚ), 90001) ∈ tiedReadings
      ∧ (pushReadings clearedTide tiedReadings).periodDatum
          = { startTime := 90001, mllw := 2, mhhw := 2 }
      ∧ (pushReadings clearedTide tiedReadings).periodEnd = false
      ∧ ¬ ((9 : ℚ) ≤ 7) ∧ ¬ ((9 : ℚ) ≤ 2) :=
  ⟨outlierReadings_sorted, outlier_mem, outlier_run, tiedReadings_sorted,
    List.mem_append_left _ outlier_mem, tied_run.1, tied_run.2, by norm_num, by norm_num⟩

/-- C13 (amended): in every state reached from the cleared state by readings
with strictly increasing timestamps, as long as the last reading did not
close a period (`periodEnd` false), `periodDatum.mllw <= x <= periodDatum.mhhw`
holds for every reading `x` of the sequence pushed at a time
`>= periodDatum.startTime`. -/
theorem C13_period_bounds (t : TideStats) (rs : List (ℚ × Nat))
    (hsorted : rs.Pairwise (fun a b => a.2 < b.2))
    (hopen : (pushReadings t.clear rs).periodEnd = false) :
    ∀ r ∈ rs, (pushReadings t.clear rs).periodDatum.startTime ≤ r.2 →
      (pushReadings t.clear rs).periodDatum.mllw ≤ r.1
        ∧ r.1 ≤ (pushReadings t.clear rs).periodDatum.mhhw :=
  period_bounds_run rs t.clear hsorted hopen

/-- C13 witness: from the cleared state, 5 at 1 s and 3 at 2 s: the period
started at 1 s has low 3 and high 5, and 5 lies between them. -/
theorem C13_period_bounds_witness :
    ([(5, 1), (3, 2)] : List (ℚ × Nat)).Pairwise (fun a b => a.2 < b.2)
      ∧ (pushReadings blankTide.clear [(5, 1), (3, 2)]).periodEnd = false
      ∧ (pushReadings blankTide.clear [(5, 1), (3, 2)]).periodDatum
          = { startTime := 1, mllw := 3, mhhw := 5 }
      ∧ (pushReadings blankTide.clear [(5, 1), (3, 2)]).periodDatum.mllw ≤ 5
      ∧ (5 : ℚ) ≤ (pushReadings blankTide.clear [(5, 1), (3, 2)]).periodDatum.mhhw :=
  have h1 : ([(5, 1), (3, 2)] : List (ℚ × Nat)).Pairwise (fun a b => a.2 < b.2) := by simp
  have h2 : (pushReadings blankTide.clear [(5, 1), (3, 2)]).periodEnd = false := by rfl
  have h3 : (pushReadings blankTide.clear [(5, 1), (3, 2)]).periodDatum.startTime ≤ 1 := by
    decide
  ⟨h1, h2, by rfl,
    (C13_period_bounds blankTide [(5, 1), (3, 2)] h1 h2 (5, 1) (by simp) h3).1,
    (C13_period_bounds blankTide [(5, 1), (3, 2)] h1 h2 (5, 1) (by simp) h3).2⟩

/-! ## C18: low below high, in the period and in the long-run means -/

theorem storedAfterPush_mean_le (l h : ℚ) (L H : stat_t) (hn : L.num = H.num)
    (hlt : L.num + 1 < 2147483648) (hlh : l ≤ h) (hm : L.mean ≤ H.mean) :
    (storedAfterPush l L).mean ≤ (storedAfterPush h H).mean := by
  have hmodL : (L.num + 1) % UINT32_SIZE = L.num + 1 := by
    unfold UINT32_SIZE; omega
  have hint : toInt32 (L.num + 1) = ((L.num + 1 : Nat) : Int) := toInt32_of_lt hlt
  unfold storedAfterPush
  rw [← hn, hmodL, hint]
  by_cases h1 : ((L.num + 1 : Nat) : Int) = 1
  · rw [if_pos h1, if_pos h1]
    exact hlh
  · rw [if_neg h1, if_neg h1]
    have hk : (2 : ℚ) ≤ (((L.num + 1 : Nat) : Int) : ℚ) := by
      have : (2 : Int) ≤ ((L.num + 1 : Nat) : Int) := by omega
      exact_mod_cast this
    generalize (((L.num + 1 : Nat) : Int) : ℚ) = k at hk
    have hk0 : (0 : ℚ) < k := by linarith
    show L.mean + (l - L.mean) / k ≤ H.mean + (h - H.mean) / k
    have e1 : L.mean + (l - L.mean) / k = (L.mean * (k - 1) + l) / k := by
      field_simp
      ring
    have e2 : H.mean + (h - H.mean) / k = (H.mean * (k - 1) + h) / k := by
      field_simp
      ring
    rw [e1, e2]
    apply div_le_div_of_nonneg_right _ (le_of_lt hk0)
    have : L.mean * (k - 1) ≤ H.mean * (k - 1) :=
      mul_le_mul_of_nonneg_right hm (by linarith)
    linarith

theorem step_basic (s : TideStats) (d : ℚ) (rt : Nat)
    (h1 : s.periodDatum.mllw ≤ s.periodDatum.mhhw)
    (h2 : s.framMllw.num = s.framMhhw.num)
    (h3 : s.mllwStats = s.framMllw) (h4 : s.mhhwStats = s.framMhhw) :
    (s.pushDistanceUpwards d rt).periodDatum.mllw ≤ (s.pushDistanceUpwards d rt).periodDatum.mhhw
      ∧ (s.pushDistanceUpwards d rt).framMllw.num = (s.pushDistanceUpwards d rt).framMhhw.num
      ∧ (s.pushDistanceUpwards d rt).mllwStats = (s.pushDistanceUpwards d rt).framMllw
      ∧ (s.pushDistanceUpwards d rt).mhhwStats = (s.pushDistanceUpwards d rt).framMhhw := by
  cases h : segmentRule s rt with
  | restart =>
    obtain ⟨-, -, -, -, a5, a6, -, a8, -, -, -, -, a13, a14, -, -, -, -⟩ :=
      restart_fields s d rt h
    rw [a5, a6, a8, a13, a14, h3, h4]
    exact ⟨le_refl _, h2, rfl, rfl⟩
  | continuePeriod =>
    obtain ⟨-, -, -, -, a5, a6, -, a8, -, -, -, -, a13, a14, -, -, -, -⟩ :=
      continue_fields s d rt h
    rw [a5, a6, a8, a13, a14, h3, h4]
    simp only [ite_lt_eq_min, ite_gt_eq_max]
    exact ⟨le_trans (min_le_left _ _) (le_trans h1 (le_max_left _ _)), h2, trivial, trivial⟩
  | closePeriod =>
    obtain ⟨-, -, -, -, a5, a6, -, a8, -, -, -, -, a13, a14, -, -, -, -⟩ :=
      close_fields s d rt h
    rw [a5, a6, a8, a13, a14]
    refine ⟨h1, ?_, rfl, rfl⟩
    rw [storedAfterPush_num, storedAfterPush_num, h2]

theorem step_mean (s : TideStats) (d : ℚ) (rt : Nat)
    (h1 : s.periodDatum.mllw ≤ s.periodDatum.mhhw)
    (h2 : s.framMllw.num = s.framMhhw.num)
    (h3 : s.mllwStats = s.framMllw) (h4 : s.mhhwStats = s.framMhhw)
    (hm : s.framMllw.mean ≤ s.framMhhw.mean)
    (hc : s.framMllw.num + closeCount s [(d, rt)] < 2147483648) :
    (s.pushDistanceUpwards d rt).framMllw.mean ≤ (s.pushDistanceUpwards d rt).framMhhw.mean
      ∧ (s.pushDistanceUpwards d rt).framMllw.num
          = s.framMllw.num + closeCount s [(d, rt)] := by
  cases h : segmentRule s rt with
  | restart =>
    obtain ⟨-, -, -, -, -, -, -, -, -, -, -, -, a13, a14, -, -, -, -⟩ :=
      restart_fields s d rt h
    rw [a13, a14, h3, h4]
    refine ⟨hm, ?_⟩
    simp [closeCount, h]
  | continuePeriod =>
    obtain ⟨-, -, -, -, -, -, -, -, -, -, -, -, a13, a14, -, -, -, -⟩ :=
      continue_fields s d rt h
    rw [a13, a14, h3, h4]
    refine ⟨hm, ?_⟩
    simp [closeCount, h]
  | closePeriod =>
    obtain ⟨-, -, -, -, -, -, -, -, -, -, -, -, a13, a14, -, -, -, -⟩ :=
      close_fields s d rt h
    have hcc : closeCount s [(d, rt)] = 1 := by simp [closeCount, h]
    rw [hcc] at hc ⊢
    rw [a13, a14]
    refine ⟨storedAfterPush_mean_le _ _ _ _ h2 hc h1 hm, ?_⟩
    rw [storedAfterPush_num]
    unfold UINT32_SIZE
    omega

theorem closeCount_cons (s : TideStats) (r : ℚ × Nat) (rs : List (ℚ × Nat)) :
    closeCount s (r :: rs)
      = closeCount s [(r.1, r.2)] + closeCount (s.pushDistanceUpwards r.1 r.2) rs := by
  simp [closeCount]

theorem run_basic (rs : List (ℚ × Nat)) :
    ∀ s : TideStats, s.periodDatum.mllw ≤ s.periodDatum.mhhw →
      s.framMllw.num = s.framMhhw.num → s.mllwStats = s.framMllw → s.mhhwStats = s.framMhhw →
      (pushReadings s rs).periodDatum.mllw ≤ (pushReadings s rs).periodDatum.mhhw
        ∧ (pushReadings s rs).framMllw.num = (pushReadings s rs).framMhhw.num
        ∧ (pushReadings s rs).mllwStats = (pushReadings s rs).framMllw
        ∧ (pushReadings s rs).mhhwStats = (pushReadings s rs).framMhhw := by
  induction rs with
  | nil => intro s h1 h2 h3 h4; exact ⟨h1, h2, h3, h4⟩
  | cons r rs ih =>
    intro s h1 h2 h3 h4
    rw [pushReadings_cons]
    obtain ⟨b1, b2, b3, b4⟩ := step_basic s r.1 r.2 h1 h2 h3 h4
    exact ih _ b1 b2 b3 b4

theorem run_mean (rs : List (ℚ × Nat)) :
    ∀ s : TideStats, s.periodDatum.mllw ≤ s.periodDatum.mhhw →
      s.framMllw.num = s.framMhhw.num → s.mllwStats = s.framMllw → s.mhhwStats = s.framMhhw →
      s.framMllw.mean ≤ s.framMhhw.mean →
      s.framMllw.num + closeCount s rs < 2147483648 →
      (pushReadings s rs).framMllw.mean ≤ (pushReadings s rs).framMhhw.mean
        ∧ (pushReadings s rs).framMllw.num = s.framMllw.num + closeCount s rs := by
  induction rs with
  | nil =>
    intro s _ _ _ _ hm _
    exact ⟨hm, by simp [closeCount, pushReadings_nil]⟩
  | cons r rs ih =>
    intro s h1 h2 h3 h4 hm hc
    rw [closeCount_cons] at hc ⊢
    rw [pushReadings_cons]
    obtain ⟨b1, b2, b3, b4⟩ := step_basic s r.1 r.2 h1 h2 h3 h4
    obtain ⟨m1, m2⟩ := step_mean s r.1 r.2 h1 h2 h3 h4 hm (by omega)
    obtain ⟨i1, i2⟩ := ih _ b1 b2 b3 b4 m1 (by rw [m2]; omega)
    exact ⟨i1, by rw [i2, m2]; omega⟩

theorem dense_run_from (t1 : Nat) (rk : ℚ × Nat) (L H : stat_t) (ms : List (ℚ × Nat)) :
    ∀ (s : TideStats) (prev : ℚ × Nat),
      s.periodDatum.startTime = t1 → s.periodEnd = false →
      s.state.lastReadingTime = prev.2 →
      s.mllwStats = L → s.mhhwStats = H → s.framMllw = L → s.framMhhw = H →
      0 < t1 → t1 ≤ prev.2 →
      List.Chain closeInTime prev (ms ++ [rk]) →
      (∀ r ∈ ms, r.2 < UINT32_SIZE ∧ r.2 - t1 < DATUM_PERIOD_S) →
      rk.2 < UINT32_SIZE → DATUM_PERIOD_S ≤ rk.2 - t1 →
      (pushReadings s (ms ++ [rk])).framMllw
          = storedAfterPush (listMin s.periodDatum.mllw (ms.map Prod.fst)) L
        ∧ (pushReadings s (ms ++ [rk])).framMhhw
          = storedAfterPush (listMax s.periodDatum.mhhw (ms.map Prod.fst)) H
        ∧ (pushReadings s (ms ++ [rk])).mllwStats = (pushReadings s (ms ++ [rk])).framMllw
        ∧ (pushReadings s (ms ++ [rk])).mhhwStats = (pushReadings s (ms ++ [rk])).framMhhw
        ∧ (pushReadings s (ms ++ [rk])).periodEnd = true := by
  induction ms with
  | nil =>
    intro s prev hs he hl hm1 hm2 hf1 hf2 h0 h1 hch _ hk hend
    have hc : closeInTime prev rk := by
      simpa using hch
    obtain ⟨hc1, hc2⟩ := hc
    have hr : segmentRule s rk.2 = .closePeriod :=
      rule_close_of_dense s rk.2 t1 prev.2 hs he hl h0 h1 hc1 hc2 hk hend
    obtain ⟨-, -, -, -, a5, a6, -, -, -, -, -, -, a13, a14, -, -, -, a18⟩ :=
      close_fields s rk.1 rk.2 hr
    simp only [List.nil_append, pushReadings_cons, pushReadings_nil, List.map_nil, listMin,
      listMax, List.foldl_nil]
    rw [a5, a6, a13, a14, hf1, hf2]
    exact ⟨rfl, rfl, rfl, rfl, a18⟩
  | cons r ms ih =>
    intro s prev hs he hl hm1 hm2 hf1 hf2 h0 h1 hch hmid hk hend
    rw [List.cons_append, List.chain_cons] at hch
    obtain ⟨⟨hc1, hc2⟩, hch'⟩ := hch
    obtain ⟨hr32, hrp⟩ := hmid r (List.mem_cons_self _ _)
    have hr : segmentRule s r.2 = .continuePeriod :=
      rule_continue_of_dense s r.2 t1 prev.2 hs he hl h0 h1 hc1 hc2 hr32 hrp
    obtain ⟨-, -, -, -, c5, c6, -, c8, -, -, -, -, c13, c14, -, -, -, c18⟩ :=
      continue_fields s r.1 r.2 hr
    have ih' := ih (s.pushDistanceUpwards r.1 r.2) r
      (by rw [c8]; exact hs) (by rw [c18]; exact he) (pushDistanceUpwards_last s r.1 r.2)
      (c5.trans hm1) (c6.trans hm2) (c13.trans hm1) (c14.trans hm2) h0 (by omega) hch'
      (fun r' hr' => hmid r' (List.mem_cons_of_mem _ hr')) hk hend
    rw [c8] at ih'
    simp only [ite_lt_eq_min, ite_gt_eq_max] at ih'
    rw [List.cons_append, pushReadings_cons]
    simp only [List.map_cons, listMin_cons, listMax_cons]
    exact ih'

theorem listMin_const (x m : ℚ) (hm : m ≤ x) (l : List Nat) (f : Nat → Nat) :
    listMin m ((l.map (fun i => (x, f i))).map Prod.fst) = m := by
  induction l with
  | nil => exact List.foldl_nil
  | cons i l ih =>
    rw [List.map_cons, List.map_cons, listMin_cons, min_eq_left hm]
    exact ih

theorem listMax_const (x m : ℚ) (hm : x ≤ m) (l : List Nat) (f : Nat → Nat) :
    listMax m ((l.map (fun i => (x, f i))).map Prod.fst) = m := by
  induction l with
  | nil => exact List.foldl_nil
  | cons i l ih =>
    rw [List.map_cons, List.map_cons, listMax_cons, max_eq_left hm]
    exact ih

theorem listMin_block (x y : ℚ) (l : List Nat) (f : Nat → Nat) :
    listMin x (((y, 3601) :: l.map (fun i => (x, f i))).map Prod.fst) = min x y := by
  rw [List.map_cons, listMin_cons]
  exact listMin_const x (min x y) (min_le_left x y) l f

theorem listMax_block (x y : ℚ) (l : List Nat) (f : Nat → Nat) :
    listMax x (((y, 3601) :: l.map (fun i => (x, f i))).map Prod.fst) = max x y := by
  rw [List.map_cons, listMax_cons]
  exact listMax_const x (max x y) (le_max_left x y) l f

theorem range23_eq :
    List.range 23
      = [0, 1, 2, 3, 4, 5, 6, 7, 8, 9, 10, 11, 12, 13, 14, 15, 16, 17, 18, 19, 20, 21, 22] := by
  decide

theorem periodBlock_chain (x y : ℚ) :
    List.Chain closeInTime (x, 1)
      (((y, 3601) :: (List.range 23).map (fun i => (x, 7201 + 3600 * i)))
        ++ [(x, 90001)]) := by
  rw [range23_eq]
  simp only [List.map_cons, List.map_nil, List.cons_append, List.nil_append, List.chain_cons,
    closeInTime, DATUM_MAX_GAP_S]
  norm_num

theorem periodBlock_mid (x y : ℚ) :
    ∀ r ∈ ((y, 3601) :: (List.range 23).map (fun i => (x, 7201 + 3600 * i))),
      r.2 < UINT32_SIZE ∧ r.2 - 1 < DATUM_PERIOD_S := by
  rw [range23_eq]
  simp only [List.map_cons, List.map_nil, List.forall_mem_cons, UINT32_SIZE, DATUM_PERIOD_S]
  norm_num

theorem periodBlock_run (x y : ℚ) (s : TideStats)
    (hs : s.periodDatum.startTime = 0 ∨ s.periodEnd = true)
    (h3 : s.mllwStats = s.framMllw) (h4 : s.mhhwStats = s.framMhhw) :
    (pushReadings s (periodBlock x y)).framMllw = storedAfterPush (min x y) s.framMllw
      ∧ (pushReadings s (periodBlock x y)).framMhhw = storedAfterPush (max x y) s.framMhhw
      ∧ (pushReadings s (periodBlock x y)).mllwStats
          = (pushReadings s (periodBlock x y)).framMllw
      ∧ (pushReadings s (periodBlock x y)).mhhwStats
          = (pushReadings s (periodBlock x y)).framMhhw
      ∧ (pushReadings s (periodBlock x y)).periodEnd = true := by
  have hr : segmentRule s 1 = .restart := by
    rw [segmentRule_restart_iff]
    rcases hs with h | h
    · exact Or.inl h
    · exact Or.inr (Or.inl h)
  obtain ⟨-, -, -, -, a5, a6, -, a8, -, -, -, -, a13, a14, -, -, -, a18⟩ :=
    restart_fields s x 1 hr
  have hd := dense_run_from 1 (x, 90001) s.framMllw s.framMhhw
    ((y, 3601) :: (List.range 23).map (fun i => (x, 7201 + 3600 * i)))
    (s.pushDistanceUpwards x 1) (x, 1)
    (by rw [a8]) a18 (pushDistanceUpwards_last _ _ _)
    (a5.trans h3) (a6.trans h4) (a13.trans h3) (a14.trans h4) (by decide) (le_refl _)
    (periodBlock_chain x y) (periodBlock_mid x y)
    (show (90001 : Nat) < UINT32_SIZE by decide)
    (show DATUM_PERIOD_S ≤ 90001 - 1 by decide)
  rw [a8] at hd
  simp only [listMin_block, listMax_block] at hd
  have e : periodBlock x y
      = (x, 1) :: (((y, 3601) :: (List.range 23).map (fun i => (x, 7201 + 3600 * i)))
          ++ [(x, 90001)]) := rfl
  rw [e, pushReadings_cons]
  exact hd

theorem pushReadings_blockReadings (x y : ℚ) (s : TideStats) (k : Nat) :
    pushReadings s (blockReadings x y k) = afterBlocks x y s k := by
  induction k with
  | zero => rfl
  | succ k ih =>
    show pushReadings s (blockReadings x y k ++ periodBlock x y)
      = pushReadings (afterBlocks x y s k) (periodBlock x y)
    rw [pushReadings_append, ih]

theorem afterBlocks_state (x y : ℚ) (s : TideStats)
    (hs : s.periodDatum.startTime = 0 ∨ s.periodEnd = true)
    (h3 : s.mllwStats = s.framMllw) (h4 : s.mhhwStats = s.framMhhw) (k : Nat) :
    ((afterBlocks x y s k).periodDatum.startTime = 0 ∨ (afterBlocks x y s k).periodEnd = true)
      ∧ (afterBlocks x y s k).mllwStats = (afterBlocks x y s k).framMllw
      ∧ (afterBlocks x y s k).mhhwStats = (afterBlocks x y s k).framMhhw
      ∧ (afterBlocks x y s k).framMllw
          = (List.replicate k (min x y)).foldl (fun st v => storedAfterPush v st) s.framMllw
      ∧ (afterBlocks x y s k).framMhhw
          = (List.replicate k (max x y)).foldl (fun st v => storedAfterPush v st) s.framMhhw := by
  induction k with
  | zero => exact ⟨hs, h3, h4, rfl, rfl⟩
  | succ k ih =>
    obtain ⟨i1, i2, i3, i4, i5⟩ := ih
    obtain ⟨p1, p2, p3, p4, p5⟩ := periodBlock_run x y (afterBlocks x y s k) i1 i2 i3
    have e : afterBlocks x y s (k + 1)
        = pushReadings (afterBlocks x y s k) (periodBlock x y) := rfl
    rw [e]
    refine ⟨Or.inr p5, p3, p4, ?_, ?_⟩
    · rw [p1, i4, List.replicate_succ', List.foldl_append]
      rfl
    · rw [p2, i5, List.replicate_succ', List.foldl_append]
      rfl

theorem longRun_slots (k : Nat) (hk1 : 1 ≤ k) (hk : k < 2147483648) :
    (pushReadings clearedTide (blockReadings 0 0 k ++ periodBlock 0 1)).framMllw
        = storedAfterPush 0 { num := k, mean := 0, s := 0 }
      ∧ (pushReadings clearedTide (blockReadings 0 0 k ++ periodBlock 0 1)).framMhhw
        = storedAfterPush 1 { num := k, mean := 0, s := 0 } := by
  have hc : clearedTide.periodDatum.startTime = 0 ∨ clearedTide.periodEnd = true :=
    Or.inl rfl
  obtain ⟨i1, i2, i3, i4, i5⟩ := afterBlocks_state 0 0 clearedTide hc rfl rfl k
  obtain ⟨p1, p2, -, -, -⟩ := periodBlock_run 0 1 (afterBlocks 0 0 clearedTide k) i1 i2 i3
  have hz1 : clearedTide.framMllw = zeroStat := rfl
  have hz2 : clearedTide.framMhhw = zeroStat := rfl
  rw [pushReadings_append, pushReadings_blockReadings, p1, p2, i4, i5, hz1, hz2]
  simp only [min_self, max_self]
  rw [foldl_replicate_zero k hk1 hk]
  norm_num

theorem readStat_framMllw (t : TideStats) : t.readStat .framMllw = t.framMllw := rfl

theorem readStat_framMhhw (t : TideStats) : t.readStat .framMhhw = t.framMhhw := rfl

/-- C18, as stated, fails on the code: `longRun` is a sequence of readings
that closes 2^31 periods from the cleared state, the first 2^31 - 1 with low
and high 0 and the last with low 0 and high 1. The last push into MHHW has
count 2^31, which reaches `int n` as -2^31, so `mhhw()` returns -1/2^31 while
`mllw()` returns 0. -/
theorem C18_counterexample :
    (pushReadings clearedTide longRun).mllw.1 = 0
      ∧ (pushReadings clearedTide longRun).mhhw.1 = -(1 / 2147483648)
      ∧ ¬ ((pushReadings clearedTide longRun).mllw.1
            ≤ (pushReadings clearedTide longRun).mhhw.1) := by
  obtain ⟨p1, p2⟩ := longRun_slots 2147483647 (by omega) (by omega)
  have e1 : (pushReadings clearedTide longRun).mllw.1 = 0 := by
    rw [mllw_fst, readStat_framMllw]
    unfold longRun
    rw [p1]
    unfold storedAfterPush
    norm_num [toInt32, UINT32_SIZE]
  have e2 : (pushReadings clearedTide longRun).mhhw.1 = -(1 / 2147483648) := by
    rw [mhhw_fst, readStat_framMhhw]
    unfold longRun
    rw [p2]
    unfold storedAfterPush
    norm_num [toInt32, UINT32_SIZE]
  refine ⟨e1, e2, ?_⟩
  rw [e1, e2]
  norm_num

/-- C18 (amended): in every state reached from the cleared state by any
sequence of readings, `periodDatum.mllw <= periodDatum.mhhw` and the MLLW and
MHHW accumulators have the same count (in the slots and in memory); and when
the close rule fired fewer than 2^31 times in the sequence, that count is the
number of closed periods and `mllw() <= mhhw()`. -/
theorem C18_low_below_high (t : TideStats) (rs : List (ℚ × Nat)) :
    (pushReadings t.clear rs).periodDatum.mllw ≤ (pushReadings t.clear rs).periodDatum.mhhw
      ∧ (pushReadings t.clear rs).framMllw.num = (pushReadings t.clear rs).framMhhw.num
      ∧ (pushReadings t.clear rs).mllwStats.num = (pushReadings t.clear rs).mhhwStats.num
      ∧ (closeCount t.clear rs < 2147483648 →
          (pushReadings t.clear rs).mllw.1 ≤ (pushReadings t.clear rs).mhhw.1
            ∧ (pushReadings t.clear rs).framMllw.num = closeCount t.clear rs) := by
  obtain ⟨-, -, -, -, z5, z6, -, z8, -, -, -, -, z13, z14, -, -, -, -⟩ := clear_fields t
  have h1 : t.clear.periodDatum.mllw ≤ t.clear.periodDatum.mhhw := by rw [z8]
  have h2 : t.clear.framMllw.num = t.clear.framMhhw.num := by rw [z13, z14]
  have h3 : t.clear.mllwStats = t.clear.framMllw := by rw [z5, z13]
  have h4 : t.clear.mhhwStats = t.clear.framMhhw := by rw [z6, z14]
  have hm : t.clear.framMllw.mean ≤ t.clear.framMhhw.mean := by rw [z13, z14]
  have hn : t.clear.framMllw.num = 0 := by rw [z13]; rfl
  obtain ⟨b1, b2, b3, b4⟩ := run_basic rs t.clear h1 h2 h3 h4
  refine ⟨b1, b2, by rw [b3, b4, b2], fun hc => ?_⟩
  obtain ⟨m1, m2⟩ := run_mean rs t.clear h1 h2 h3 h4 hm (by rw [hn]; omega)
  rw [mllw_fst, mhhw_fst, readStat_framMllw, readStat_framMhhw, m2, hn]
  exact ⟨m1, by omega⟩

theorem outlier_closeCount : closeCount blankTide.clear outlierReadings = 1 := by
  rfl

/-- C18 witness: from the cleared state the readings `outlierReadings` close
one period with low 1 and high 7: both counts are 1 and
`mllw() = 1 <= 7 = mhhw()`. -/
theorem C18_low_below_high_witness :
    closeCount blankTide.clear outlierReadings < 2147483648
      ∧ (pushReadings blankTide.clear outlierReadings).framMllw.num = 1
      ∧ (pushReadings blankTide.clear outlierReadings).framMhhw.num = 1
      ∧ (pushReadings blankTide.clear outlierReadings).mllw.1
          ≤ (pushReadings blankTide.clear outlierReadings).mhhw.1 :=
  have hc : closeCount blankTide.clear outlierReadings < 2147483648 := by
    rw [outlier_closeCount]
    decide
  ⟨hc,
    ((C18_low_below_high blankTide outlierReadings).2.2.2 hc).2.trans outlier_closeCount,
    (C18_low_below_high blankTide outlierReadings).2.1.symm.trans
      (((C18_low_below_high blankTide outlierReadings).2.2.2 hc).2.trans outlier_closeCount),
    ((C18_low_below_high blankTide outlierReadings).2.2.2 hc).1⟩
